import Mathlib

/-!
Verification of the TLE record encoder/decoder in src/TLE_class.py.

The Python class is shallowly embedded: Python strings become lists of
characters, Python numbers (int or float arguments are both accepted by the
code) become exact rationals, and the formatting mini-language expressions
used by the code are translated operation by operation.  Python float
formatting rounds the binary double to the requested number of decimals with
round-half-to-even; we model the double by the exact rational it was built
from and round that rational half-to-even.  For every concrete value
appearing in this development the two agree: no value sits at a rounding tie
or within a double-rounding error of one.

All arithmetic inside executable definitions is performed on numerators and
denominators directly (mkRat, Int division), so that every definition
evaluates inside the kernel.
-/

namespace TLE

/-- Python strings are modelled as lists of characters. -/
abbrev Str := List Char

/-- The exact rational n / 10 ^ e; used for decimal literals and parsed decimals. -/
def decQ (n : ℤ) (e : ℕ) : ℚ := mkRat n (10 ^ e)

/-- Truncation toward zero: the semantics of Python int() applied to a number. -/
def pyTrunc (q : ℚ) : ℤ := q.num.tdiv (q.den : ℤ)

/-- Round half to even of q * 10 ^ p, computed on the numerator and denominator.
With D = den > 0, f is the floor of q * 10 ^ p and r the remainder. -/
def rdHE10 (q : ℚ) (p : ℕ) : ℤ :=
  if 2 * (q.num * 10 ^ p % (q.den : ℤ)) < (q.den : ℤ) then q.num * 10 ^ p / (q.den : ℤ)
  else if (q.den : ℤ) < 2 * (q.num * 10 ^ p % (q.den : ℤ)) then q.num * 10 ^ p / (q.den : ℤ) + 1
  else if (q.num * 10 ^ p / (q.den : ℤ)) % 2 = 0 then q.num * 10 ^ p / (q.den : ℤ)
  else q.num * 10 ^ p / (q.den : ℤ) + 1

/-- The character for the decimal digit d (for d ≤ 9). -/
def digitChar (d : ℕ) : Char := Char.ofNat (48 + d)

/-- Numeric value of a decimal digit character. -/
def charVal (c : Char) : ℕ := c.toNat - 48

/-- Decimal digit characters of n, most significant first; the first argument is
fuel bounding the recursion depth so that the definition is structural. -/
def natCharsAux : ℕ → ℕ → Str
  | 0, _ => []
  | fuel + 1, n => if n = 0 then [] else natCharsAux fuel (n / 10) ++ [digitChar (n % 10)]

/-- Decimal representation of a natural number, as Python renders it. -/
def natChars (n : ℕ) : Str := if n = 0 then ['0'] else natCharsAux n n

/-- Decimal representation of an integer, as Python renders it. -/
def intChars (i : ℤ) : Str := if i < 0 then '-' :: natChars i.natAbs else natChars i.natAbs

/-- Pad on the right with c to a minimum width w (Python left-justified format). -/
def padRightWith (c : Char) (w : ℕ) (l : Str) : Str := l ++ List.replicate (w - l.length) c

/-- Pad on the left with c to a minimum width w (Python right-justified format). -/
def padLeftWith (c : Char) (w : ℕ) (l : Str) : Str := List.replicate (w - l.length) c ++ l

/-- Python zero-padded integer format of width w: the sign, when present,
precedes the zero padding. -/
def intZeroPad (w : ℕ) (i : ℤ) : Str :=
  if i < 0 then '-' :: padLeftWith '0' (w - 1) (natChars i.natAbs)
  else padLeftWith '0' w (natChars i.natAbs)

/-- Python fixed-point format of q with p decimal places: digits of the absolute
value of the half-to-even rounding of q * 10 ^ p, a point between integer and
fractional digits, and a minus sign exactly when q is negative. -/
def fixedRender (p : ℕ) (q : ℚ) : Str :=
  if q < 0 then
    '-' :: (natChars ((rdHE10 q p).natAbs / 10 ^ p) ++
      '.' :: padLeftWith '0' p (natChars ((rdHE10 q p).natAbs % 10 ^ p)))
  else
    natChars ((rdHE10 q p).natAbs / 10 ^ p) ++
      '.' :: padLeftWith '0' p (natChars ((rdHE10 q p).natAbs % 10 ^ p))

/-- The digits after the decimal point of the p-decimal fixed-point rendering of
q: what the Python code obtains by splitting the rendering at the point. -/
def fracDigits (p : ℕ) (q : ℚ) : Str :=
  padLeftWith '0' p (natChars ((rdHE10 q p).natAbs % 10 ^ p))

/-- ASCII whitespace as stripped by Python str.strip and accepted by int()/float().
Non-ASCII whitespace is not modelled; no string in this development contains any. -/
def isPyWs (c : Char) : Bool :=
  c = ' ' || c = '\t' || c = '\n' || c = '\r' || c = '\x0b' || c = '\x0c'

/-- Strip whitespace from both ends, as Python int() and float() do. -/
def pyStrip (l : Str) : Str := ((l.dropWhile isPyWs).reverse.dropWhile isPyWs).reverse

/-- Python str.rstrip(): strip trailing whitespace. -/
def pyRstrip (l : Str) : Str := (l.reverse.dropWhile isPyWs).reverse

/-- Value of a string of decimal digits (most significant first). -/
def digitsVal (l : Str) : ℕ := l.foldl (fun a c => 10 * a + charVal c) 0

/-- Whether every character is a decimal digit. -/
def allDigits (l : Str) : Bool := l.all Char.isDigit

/-- Value of a nonempty all-digit string, and nothing else. -/
def digitsVal? (l : Str) : Option ℕ :=
  if l.isEmpty then none else if allDigits l then some (digitsVal l) else none

/-- Sign handling of Python int(): an optional single leading sign. -/
def pyIntCore : Str → Option ℤ
  | [] => none
  | c :: r =>
    if c = '-' then (digitsVal? r).map (fun n => -(n : ℤ))
    else if c = '+' then (digitsVal? r).map (fun n => (n : ℤ))
    else (digitsVal? (c :: r)).map (fun n => (n : ℤ))

/-- Python int(string): strip whitespace, optional sign, decimal digits.
Underscore separators are not modelled; no input here contains one. -/
def pyInt? (l : Str) : Option ℤ := pyIntCore (pyStrip l)

/-- Magnitude of a Python float literal: digits with at most one point and at
least one digit.  Returns the value scaled by 10 ^ (number of fractional
digits), together with that count.  Exponent forms, inf and nan are not
modelled; no input in this development contains them. -/
def floatMag? (l : Str) : Option (ℕ × ℕ) :=
  match l.dropWhile (fun c => c ≠ '.') with
  | [] => if l.isEmpty then none else if allDigits l then some (digitsVal l, 0) else none
  | _ :: fp =>
    if allDigits (l.takeWhile (fun c => c ≠ '.')) && allDigits fp &&
        !((l.takeWhile (fun c => c ≠ '.')).isEmpty && fp.isEmpty) then
      some (digitsVal (l.takeWhile (fun c => c ≠ '.')) * 10 ^ fp.length + digitsVal fp,
            fp.length)
    else none

/-- Sign handling of Python float(). -/
def pyFloatCore : Str → Option ℚ
  | [] => none
  | c :: r =>
    if c = '-' then (floatMag? r).map (fun x => decQ (-(x.1 : ℤ)) x.2)
    else if c = '+' then (floatMag? r).map (fun x => decQ (x.1 : ℤ) x.2)
    else (floatMag? (c :: r)).map (fun x => decQ (x.1 : ℤ) x.2)

/-- Python float(string). -/
def pyFloat? (l : Str) : Option ℚ := pyFloatCore (pyStrip l)

/-- Python slice l[a:b] (for a ≤ b; out-of-range indices clamp, as in Python). -/
def pySlice (a b : ℕ) (l : Str) : Str := (l.drop a).take (b - a)

/-- Modelled from the spec: the per-character checksum weight of the external
sgp4.io helper (not part of src/): a decimal digit counts its value, a minus
sign counts one, every other character counts zero. -/
def tleCharVal (c : Char) : ℕ := if c.isDigit then c.toNat - 48 else if c = '-' then 1 else 0

/-- Modelled from the spec: compute_checksum of sgp4.io (not part of src/), the
sum of the weights of the first 68 characters, modulo 10. -/
def compute_checksum (l : Str) : ℕ := ((l.take 68).map tleCharVal).sum % 10

/-- Modelled from the spec: fix_checksum of sgp4.io (not part of src/): the line
truncated to its first 68 characters, space-padded to width 68, with the
checksum digit appended as character 69. -/
def fix_checksum (l : Str) : Str :=
  padRightWith ' ' 68 (l.take 68) ++ [digitChar (compute_checksum l)]

/-- A value supplied for mm_deriv2 or B: the Python code accepts either a number
or a string in these two positions. -/
inductive MMVal where
  | num (q : ℚ)
  | str (s : Str)
deriving DecidableEq

/-- Exceptions raised by the embedded code: the validation failures raised by
the gen-tle routine (distinguished by a code), and the ValueError/IndexError
of failed parses and out-of-range indexing. -/
inductive PyExn where
  | validationError (code : ℕ)
  | valueError
  | indexError
deriving DecidableEq

/-- The constructor arguments of the TLE class. -/
structure Params where
  name : Str
  sat_num : ℚ
  classification : Str
  int_designator : Str
  epoch_year : ℚ
  epoch_day : ℚ
  mm_deriv1 : ℚ
  mm_deriv2 : MMVal
  B : MMVal
  inclination : ℚ
  right_asc_node : ℚ
  eccentricity : ℚ
  arg_perigee : ℚ
  mean_anomaly : ℚ
  mean_motion : ℚ
  rev_num : ℚ
  set_num : ℚ
deriving DecidableEq

/-- The instance attributes of a TLE object: the stored fields plus the
rendered line list. -/
structure TLEState where
  name : Str
  sat_num : ℚ
  classification : Str
  int_designator : Str
  epoch_year : ℚ
  epoch_day : ℚ
  mm_deriv1 : ℚ
  mm_deriv2 : MMVal
  B : MMVal
  set_num : ℚ
  inclination : ℚ
  right_asc_node : ℚ
  eccentricity : ℚ
  arg_perigee : ℚ
  mean_anomaly : ℚ
  mean_motion : ℚ
  rev_num : ℚ
  lines : List Str
deriving DecidableEq

/-- The 8-character zero sentinel substituted for a numeric zero. -/
def sentinel : Str := " 00000-0".toList

/-- The zero-sentinel substitution: Python compares with numeric equality, so a
numeric zero is replaced and a string never is (a string never equals 0). -/
def substMM : MMVal → MMVal
  | .num q => if q = 0 then .str sentinel else .num q
  | .str s => .str s

/-- The stored derivative/drag value as text, for rendering.  The numeric case
is unreachable in a render: validation rejects a nonzero number before any
line is built, and a numeric zero was already replaced by the sentinel. -/
def mmStr : MMVal → Str
  | .num _ => []
  | .str s => s

/-- The two checks the Python code runs on a stored derivative/drag field: a
non-string must equal 0, and a string must have a minus sign at index -2
(indexing a string of length below 2 at -2 raises IndexError). -/
def mmCheck (v : MMVal) (k : ℕ) : Option PyExn :=
  match v with
  | .num q => if q ≠ 0 then some (.validationError k) else none
  | .str s =>
    if s.length < 2 then some .indexError
    else if s.getD (s.length - 2) ' ' = '-' then none else some (.validationError (k + 1))

/-- The validation block of the gen-tle routine, in source order.  The dynamic
type checks on numeric fields are vacuous in this typed embedding; the
remaining checks are the derivative/drag form checks, the date feasibility
check, and the classification length check. -/
def validate (st : TLEState) : Option PyExn :=
  match mmCheck st.mm_deriv2 0 with
  | some e => some e
  | none =>
    match mmCheck st.B 2 with
    | some e => some e
    | none =>
      if 99 < st.epoch_year ∨ 366 < st.epoch_day then some (.validationError 4)
      else if st.classification.length ≠ 1 then some (.validationError 5)
      else none

/-- The sign character of the first-derivative field, exactly as the Python
code computes it: a minus sign when int(mm_deriv1) is negative. -/
def mm1SignChar (q : ℚ) : Char := if pyTrunc q < 0 then '-' else ' '

/-- Line 1 before the checksum pass, assembled by the format expression of the
gen-tle routine, field by field. -/
def rawLine1 (st : TLEState) : Str :=
  ['1', ' '] ++ intZeroPad 5 (pyTrunc st.sat_num)
    ++ padRightWith ' ' 1 st.classification ++ [' ']
    ++ padRightWith ' ' 8 st.int_designator ++ [' ']
    ++ intZeroPad 2 (pyTrunc st.epoch_year)
    ++ padRightWith '0' 12 (fixedRender 6 st.epoch_day) ++ [' ']
    ++ [mm1SignChar st.mm_deriv1, '.'] ++ fracDigits 8 st.mm_deriv1 ++ [' ']
    ++ padLeftWith ' ' 7 (mmStr st.mm_deriv2) ++ [' ']
    ++ padLeftWith ' ' 7 (mmStr st.B)
    ++ [' ', '0', ' '] ++ padLeftWith ' ' 4 (intChars (pyTrunc st.set_num))

/-- Line 2 before the checksum pass, assembled by the format expression of the
gen-tle routine, field by field. -/
def rawLine2 (st : TLEState) : Str :=
  ['2', ' '] ++ intZeroPad 5 (pyTrunc st.sat_num) ++ [' ']
    ++ padLeftWith ' ' 8 (fixedRender 4 st.inclination) ++ [' ']
    ++ padLeftWith ' ' 8 (fixedRender 4 st.right_asc_node) ++ [' ']
    ++ fracDigits 7 st.eccentricity ++ [' ']
    ++ padLeftWith ' ' 8 (fixedRender 4 st.arg_perigee) ++ [' ']
    ++ padLeftWith ' ' 8 (fixedRender 4 st.mean_anomaly) ++ [' ']
    ++ padRightWith '0' 11 (fixedRender 6 st.mean_motion)
    ++ intZeroPad 5 (pyTrunc st.rev_num)

/-- The attribute-assignment block of the gen-tle routine: every stored field is
overwritten from the arguments (with the zero-sentinel substitution applied)
and the line list is reset to empty, before any validation runs. -/
def storedOf (p : Params) : TLEState :=
  { name := p.name
    sat_num := p.sat_num
    classification := p.classification
    int_designator := p.int_designator
    epoch_year := p.epoch_year
    epoch_day := p.epoch_day
    mm_deriv1 := p.mm_deriv1
    mm_deriv2 := substMM p.mm_deriv2
    B := substMM p.B
    set_num := p.set_num
    inclination := p.inclination
    right_asc_node := p.right_asc_node
    eccentricity := p.eccentricity
    arg_perigee := p.arg_perigee
    mean_anomaly := p.mean_anomaly
    mean_motion := p.mean_motion
    rev_num := p.rev_num
    lines := [] }

/-- One run of the gen-tle routine: assign all attributes and clear the line
list, validate, and only on success render the three lines (name line padded
to 24, lines 1 and 2 passed through the checksum fixer).  The returned state
is the object as left behind whether or not an exception was raised. -/
def genTleRun (p : Params) : TLEState × Option PyExn :=
  match validate (storedOf p) with
  | some e => (storedOf p, some e)
  | none =>
    ({ storedOf p with lines := [padRightWith ' ' 24 (storedOf p).name,
                                 fix_checksum (rawLine1 (storedOf p)),
                                 fix_checksum (rawLine2 (storedOf p))] }, none)

/-- A call of the gen-tle routine on an existing object: the routine overwrites
every attribute, so the previous state does not influence the result. -/
def callGenTle (_prev : TLEState) (p : Params) : TLEState × Option PyExn := genTleRun p

/-- The to-str method: the three lines joined by newlines. -/
def toStr (st : TLEState) : Str :=
  st.lines.getD 0 [] ++ '\n' :: st.lines.getD 1 [] ++ '\n' :: st.lines.getD 2 []

/-- Python str.split on a newline separator. -/
def splitNl : Str → List Str
  | [] => [[]]
  | c :: r =>
    if c = '\n' then [] :: splitNl r
    else
      match splitNl r with
      | [] => [[c]]
      | h :: t => (c :: h) :: t

/-- Python indexing into a string: IndexError when out of range. -/
def pyCharAt (l : Str) (i : ℕ) : Except PyExn Char :=
  match l.get? i with
  | some c => .ok c
  | none => .error .indexError

/-- Python indexing into the split line list: IndexError when out of range. -/
def lineAt (ls : List Str) (i : ℕ) : Except PyExn Str :=
  match ls.get? i with
  | some l => .ok l
  | none => .error .indexError

/-- Python int() as used by the decoder: ValueError on a malformed string. -/
def exInt (l : Str) : Except PyExn ℤ :=
  match pyInt? l with
  | some v => .ok v
  | none => .error .valueError

/-- Python float() as used by the decoder: ValueError on a malformed string. -/
def exFloat (l : Str) : Except PyExn ℚ :=
  match pyFloat? l with
  | some v => .ok v
  | none => .error .valueError

/-- The argument expressions of create-tle-from-str, evaluated in source order:
fixed-column slices of the three lines obtained by splitting the input at
newlines.  A failing parse or index raises before the gen-tle routine runs. -/
def parseParams (input : Str) : Except PyExn Params := do
  let ls := splitNl input
  let l0 ← lineAt ls 0
  let nm := pyRstrip l0
  let l1 ← lineAt ls 1
  let sat ← exInt (pySlice 2 7 l1)
  let cls ← pyCharAt l1 7
  let des := pySlice 9 17 l1
  let yr ← exInt (pySlice 18 20 l1)
  let day ← exFloat (pySlice 20 32 l1)
  let c33 ← pyCharAt l1 33
  let mm1 ← exFloat (c33 :: '0' :: pySlice 34 43 l1)
  let mm2 := pySlice 44 52 l1
  let bs := pySlice 53 61 l1
  let sn ← exInt (pySlice 64 68 l1)
  let l2 ← lineAt ls 2
  let inc ← exFloat (pySlice 8 16 l2)
  let ra ← exFloat (pySlice 17 25 l2)
  let ec ← exFloat ('0' :: '.' :: pySlice 26 33 l2)
  let ap ← exFloat (pySlice 34 42 l2)
  let ma ← exFloat (pySlice 43 51 l2)
  let mo ← exFloat (pySlice 52 63 l2)
  let rv ← exInt (pySlice 63 68 l2)
  return { name := nm
           sat_num := (sat : ℚ)
           classification := [cls]
           int_designator := des
           epoch_year := (yr : ℚ)
           epoch_day := day
           mm_deriv1 := mm1
           mm_deriv2 := .str mm2
           B := .str bs
           inclination := inc
           right_asc_node := ra
           eccentricity := ec
           arg_perigee := ap
           mean_anomaly := ma
           mean_motion := mo
           rev_num := (rv : ℚ)
           set_num := (sn : ℚ) }

/-- The create-tle-from-str method on an existing object: parse, then run the
gen-tle routine.  A parse failure raises before any attribute is touched, so
the previous state survives; a validation failure inside the gen-tle routine
leaves the overwritten state behind. -/
def createTleFromStr (prev : TLEState) (input : Str) : TLEState × Option PyExn :=
  match parseParams input with
  | .error e => (prev, some e)
  | .ok p => genTleRun p

/-- The default constructor arguments of the TLE class. -/
def defaultParams : Params :=
  { name := "Satellite".toList
    sat_num := 0
    classification := "U".toList
    int_designator := "000000".toList
    epoch_year := 22
    epoch_day := 1
    mm_deriv1 := 0
    mm_deriv2 := .num 0
    B := .num 0
    inclination := 30
    right_asc_node := 0
    eccentricity := decQ 6703 7
    arg_perigee := decQ 130536 3
    mean_anomaly := 0
    mean_motion := 1
    rev_num := 0
    set_num := 1 }

/-- The fixed field set of the ISS preset method. -/
def issParams : Params :=
  { name := "ISS".toList
    sat_num := 25544
    classification := "U".toList
    int_designator := "98067A".toList
    epoch_year := 22
    epoch_day := 1
    mm_deriv1 := decQ (-2182) 8
    mm_deriv2 := .num 0
    B := .str ("-11606-4".toList)
    inclination := decQ 516416 4
    right_asc_node := decQ 2474627 4
    eccentricity := decQ 6703 7
    arg_perigee := decQ 130536 3
    mean_anomaly := decQ 3250288 4
    mean_motion := decQ 1572125391 8
    rev_num := 56353
    set_num := 292 }

/-- The state of a TLE object right after the ISS preset method. -/
def issState : TLEState := (genTleRun issParams).1

/-- Line 1 of the canonical three-line ISS fixture quoted by the spec. -/
def fixtureLine1 : Str :=
  "1 25544U 98067A   22001.00000000 -.00002182  00000-0 -11606-4 0  2921".toList

/-- Line 2 of the canonical three-line ISS fixture quoted by the spec. -/
def fixtureLine2 : Str :=
  "2 25544  51.6416 247.4627 0006703 130.5360 325.0288 15.72125391563537".toList

/-- The form the spec requires of a derivative/drag argument: the numeric zero
(to be replaced by the sentinel), or 8 characters of assumed-decimal-point
text with the exponent sign at index 6 (the index the validation checks). -/
def MMForm : MMVal → Prop
  | .num q => q = 0
  | .str s => s.length = 8 ∧ s.getD 6 ' ' = '-'

instance instDecMMForm : (v : MMVal) → Decidable (MMForm v)
  | .num q => inferInstanceAs (Decidable (q = 0))
  | .str s => inferInstanceAs (Decidable (s.length = 8 ∧ s.getD 6 ' ' = '-'))

/-- Whether a derivative/drag argument is free of newline characters (trivially
true for a numeric argument). -/
def mmNoNl : MMVal → Prop
  | .num _ => True
  | .str s => '\n' ∉ s

instance instDecMmNoNl : (v : MMVal) → Decidable (mmNoNl v)
  | .num _ => inferInstanceAs (Decidable True)
  | .str s => inferInstanceAs (Decidable ('\n' ∉ s))

/-- Modelled from the spec: the field domains of the data-model table of the
spec (name at most 24 characters, catalog number an integer 0 to 99999,
classification one character, designator at most 8 characters, epoch year an
integer 0 to 99, epoch day 1.0 to 366.999999, first derivative of magnitude
below one, derivative/drag fields in sentinel-or-signed-text form, element
set and revolution numbers nonnegative integers with no range bound, the
orbital angles in their degree ranges, eccentricity in 0 to 1, and positive
mean motion). -/
def SpecValidRecord (p : Params) : Prop :=
  p.name.length ≤ 24 ∧
  p.sat_num.den = 1 ∧ 0 ≤ p.sat_num ∧ p.sat_num ≤ 99999 ∧
  p.classification.length = 1 ∧
  p.int_designator.length ≤ 8 ∧
  p.epoch_year.den = 1 ∧ 0 ≤ p.epoch_year ∧ p.epoch_year ≤ 99 ∧
  1 ≤ p.epoch_day ∧ p.epoch_day ≤ decQ 366999999 6 ∧
  -1 < p.mm_deriv1 ∧ p.mm_deriv1 < 1 ∧
  MMForm p.mm_deriv2 ∧ MMForm p.B ∧
  p.set_num.den = 1 ∧ 0 ≤ p.set_num ∧
  0 ≤ p.inclination ∧ p.inclination ≤ 180 ∧
  0 ≤ p.right_asc_node ∧ p.right_asc_node ≤ 360 ∧
  0 ≤ p.eccentricity ∧ p.eccentricity ≤ 1 ∧
  0 ≤ p.arg_perigee ∧ p.arg_perigee ≤ 360 ∧
  0 ≤ p.mean_anomaly ∧ p.mean_anomaly ≤ 360 ∧
  0 < p.mean_motion ∧
  p.rev_num.den = 1 ∧ 0 ≤ p.rev_num

instance instDecSpecValid (p : Params) : Decidable (SpecValidRecord p) := by
  unfold SpecValidRecord
  infer_instance

/-- The record domain on which the encode/decode round trip is byte-exact: the
spec domains strengthened by what the fixed-width wire format forces: the
element set number fits its 4 columns, the revolution number its 5 columns,
the mean motion its 11 columns (at most 9999.999999), and the text fields
are free of newlines and of non-space whitespace in stripped positions. -/
structure FitsFormat (p : Params) : Prop where
  name_le : p.name.length ≤ 24
  name_ws : ∀ c ∈ p.name, isPyWs c = true → c = ' '
  sat_nonneg : 0 ≤ p.sat_num
  sat_le : p.sat_num ≤ 99999
  cls_len : p.classification.length = 1
  cls_nl : '\n' ∉ p.classification
  des_le : p.int_designator.length ≤ 8
  des_nl : '\n' ∉ p.int_designator
  yr_nonneg : 0 ≤ p.epoch_year
  yr_le : p.epoch_year ≤ 99
  day_ge : 1 ≤ p.epoch_day
  day_le : p.epoch_day ≤ 366
  mm1_gt : -1 < p.mm_deriv1
  mm1_lt : p.mm_deriv1 < 1
  mm2_form : MMForm p.mm_deriv2
  mm2_nl : mmNoNl p.mm_deriv2
  b_form : MMForm p.B
  b_nl : mmNoNl p.B
  set_nonneg : 0 ≤ p.set_num
  set_le : p.set_num ≤ 9999
  incl_nonneg : 0 ≤ p.inclination
  incl_le : p.inclination ≤ 180
  raan_nonneg : 0 ≤ p.right_asc_node
  raan_le : p.right_asc_node ≤ 360
  ecc_nonneg : 0 ≤ p.eccentricity
  argp_nonneg : 0 ≤ p.arg_perigee
  argp_le : p.arg_perigee ≤ 360
  ma_nonneg : 0 ≤ p.mean_anomaly
  ma_le : p.mean_anomaly ≤ 360
  mo_pos : 0 < p.mean_motion
  mo_le : p.mean_motion ≤ decQ 9999999999 6
  rev_nonneg : 0 ≤ p.rev_num
  rev_le : p.rev_num ≤ 99999

/-- A spec-valid record (mean motion 12345678901.5 revolutions per day) on
which the re-derivation of a decode of the encoded text raises: the mean
motion overflows its 11 columns, the checksum pass truncates line 2 at 68
characters, and the revolution-number slice of the truncated line is the
unparsable text ".5000". -/
def cexRoundTripParams : Params := { defaultParams with mean_motion := decQ 123456789015 1 }

/-- Three well-formed TLE lines whose epoch-day field holds 400.0: parsing
succeeds and the re-derivation fails validation. -/
def badDayInput : Str :=
  ("Satellite               \n" ++
   "1 00000U 000000   22400.00000000  .00000000  00000-0  00000-0 0    19\n" ++
   "2 00000  30.0000   0.0000 0006703 130.5360   0.0000 1.000000000000000").toList

/-- Default record with a 25-character name. -/
def name25Params : Params := { defaultParams with name := List.replicate 25 'A' }

/-- Default record with inclination 200 degrees (outside the spec domain). -/
def incl200Params : Params := { defaultParams with inclination := 200 }

/-- Default record with inclination 500 degrees. -/
def incl500Params : Params := { defaultParams with inclination := 500 }

/-- Default record with epoch day 400. -/
def day400Params : Params := { defaultParams with epoch_day := 400 }

/-- Default record with a two-character classification. -/
def classUSParams : Params := { defaultParams with classification := "US".toList }

end TLE

set_option maxRecDepth 100000
set_option maxHeartbeats 2000000

namespace TLE

theorem length_padRightWith (c : Char) (w : ℕ) (l : Str) :
    (padRightWith c w l).length = max w l.length := by
  simp [padRightWith]
  omega

theorem length_padLeftWith (c : Char) (w : ℕ) (l : Str) :
    (padLeftWith c w l).length = max w l.length := by
  simp [padLeftWith]
  omega

theorem padRightWith_of_le (c : Char) (w : ℕ) (l : Str) (h : w ≤ l.length) :
    padRightWith c w l = l := by
  simp [padRightWith, Nat.sub_eq_zero_of_le h]

theorem padLeftWith_of_le (c : Char) (w : ℕ) (l : Str) (h : w ≤ l.length) :
    padLeftWith c w l = l := by
  simp [padLeftWith, Nat.sub_eq_zero_of_le h]

theorem fix_checksum_length (l : Str) : (fix_checksum l).length = 69 := by
  simp [fix_checksum, length_padRightWith]

theorem fix_checksum_of_length (l : Str) (h : l.length = 68) :
    fix_checksum l = l ++ [digitChar (compute_checksum l)] := by
  have ht : l.take 68 = l := List.take_of_length_le (by omega)
  rw [fix_checksum, ht, padRightWith_of_le _ _ _ (by omega)]

theorem genTleRun_of_validate_some (p : Params) (e : PyExn)
    (h : validate (storedOf p) = some e) : genTleRun p = (storedOf p, some e) := by
  unfold genTleRun
  rw [h]

theorem genTleRun_of_validate_none (p : Params) (h : validate (storedOf p) = none) :
    genTleRun p =
      ({ storedOf p with lines := [padRightWith ' ' 24 (storedOf p).name,
                                   fix_checksum (rawLine1 (storedOf p)),
                                   fix_checksum (rawLine2 (storedOf p))] }, none) := by
  unfold genTleRun
  rw [h]

theorem genTleRun_fst_lines (p : Params) (h : validate (storedOf p) = none) :
    (genTleRun p).1.lines =
      [padRightWith ' ' 24 p.name,
       fix_checksum (rawLine1 (storedOf p)), fix_checksum (rawLine2 (storedOf p))] := by
  unfold genTleRun
  rw [h]
  rfl

theorem genTleRun_fst_mm2 (p : Params) : (genTleRun p).1.mm_deriv2 = substMM p.mm_deriv2 := by
  unfold genTleRun
  split <;> rfl

theorem genTleRun_fst_B (p : Params) : (genTleRun p).1.B = substMM p.B := by
  unfold genTleRun
  split <;> rfl

theorem validate_none_facts (st : TLEState) (h : validate st = none) :
    st.epoch_year ≤ 99 ∧ st.epoch_day ≤ 366 ∧ st.classification.length = 1 := by
  unfold validate at h
  cases h1 : mmCheck st.mm_deriv2 0 <;> rw [h1] at h
  · cases h2 : mmCheck st.B 2 <;> rw [h2] at h
    · by_cases hd : 99 < st.epoch_year ∨ 366 < st.epoch_day
      · rw [if_pos hd] at h
        simp at h
      · by_cases hc : st.classification.length ≠ 1
        · rw [if_neg hd, if_pos hc] at h
          simp at h
        · exact ⟨le_of_not_lt (fun hy => hd (Or.inl hy)),
                 le_of_not_lt (fun hy => hd (Or.inr hy)), by omega⟩
    · simp at h
  · simp at h

theorem validate_none_of_checks (st : TLEState)
    (h1 : mmCheck st.mm_deriv2 0 = none) (h2 : mmCheck st.B 2 = none)
    (h3 : st.epoch_year ≤ 99) (h4 : st.epoch_day ≤ 366)
    (h5 : st.classification.length = 1) : validate st = none := by
  unfold validate
  rw [h1, h2]
  have hdate : ¬(99 < st.epoch_year ∨ 366 < st.epoch_day) := by
    rintro (hc | hc)
    · exact absurd hc (not_lt.mpr h3)
    · exact absurd hc (not_lt.mpr h4)
  have hcls : ¬(st.classification.length ≠ 1) := by omega
  rw [if_neg hdate, if_neg hcls]

theorem natCharsAux_eq (fuel n : ℕ) (h : n ≤ fuel) :
    natCharsAux fuel n = ((Nat.digits 10 n).map digitChar).reverse := by
  induction fuel generalizing n with
  | zero =>
    interval_cases n
    simp [natCharsAux]
  | succ fuel ih =>
    by_cases hn : n = 0
    · simp [natCharsAux, hn]
    · have hlt : n / 10 ≤ fuel := by
        have := Nat.div_lt_self (Nat.pos_of_ne_zero hn) (by norm_num : 1 < 10)
        omega
      rw [natCharsAux, if_neg hn, ih (n / 10) hlt,
        Nat.digits_def' (by norm_num : 1 < 10) (Nat.pos_of_ne_zero hn)]
      simp

theorem natChars_eq (n : ℕ) :
    natChars n = if n = 0 then ['0'] else ((Nat.digits 10 n).map digitChar).reverse := by
  unfold natChars
  split
  · rfl
  · exact natCharsAux_eq n n le_rfl

theorem natChars_length_le (n k : ℕ) (hk : 1 ≤ k) (h : n < 10 ^ k) :
    (natChars n).length ≤ k := by
  rw [natChars_eq]
  split
  · simpa
  · rename_i hn
    simp only [List.length_reverse, List.length_map]
    rw [Nat.digits_len 10 n (by norm_num) hn]
    have := (Nat.lt_pow_iff_log_lt (by norm_num : 1 < 10) hn).mp h
    omega

theorem natChars_ne_nil (n : ℕ) : natChars n ≠ [] := by
  rw [natChars_eq]
  split
  · simp
  · rename_i hn
    simp [Nat.digits_ne_nil_iff_ne_zero.mpr hn]

theorem digitChar_isDigit (d : ℕ) (h : d < 10) : (digitChar d).isDigit = true := by
  interval_cases d <;> decide

theorem charVal_digitChar (d : ℕ) (h : d < 10) : charVal (digitChar d) = d := by
  interval_cases d <;> decide

theorem mem_natChars_isDigit (n : ℕ) (c : Char) (hc : c ∈ natChars n) : c.isDigit = true := by
  rw [natChars_eq] at hc
  split at hc
  · simp only [List.mem_singleton] at hc
    subst hc
    decide
  · simp only [List.mem_reverse, List.mem_map] at hc
    obtain ⟨d, hd, rfl⟩ := hc
    exact digitChar_isDigit d (Nat.digits_lt_base (by norm_num) hd)

theorem isDigit_facts (c : Char) (h : c.isDigit = true) :
    c ≠ '-' ∧ c ≠ '+' ∧ c ≠ '.' ∧ c ≠ '\n' := by
  refine ⟨fun hc => ?_, fun hc => ?_, fun hc => ?_, fun hc => ?_⟩ <;>
    (subst hc; exact absurd h (by decide))

theorem isDigit_not_ws (c : Char) (h : c.isDigit = true) : isPyWs c = false := by
  by_contra hw
  rw [Bool.not_eq_false] at hw
  simp only [isPyWs, Bool.or_eq_true, decide_eq_true_eq] at hw
  rcases hw with ((((h1 | h1) | h1) | h1) | h1) | h1 <;> (subst h1; exact absurd h (by decide))

theorem digitsVal_from (l : Str) (a : ℕ) :
    l.foldl (fun x c => 10 * x + charVal c) a = a * 10 ^ l.length + digitsVal l := by
  induction l generalizing a with
  | nil => simp [digitsVal]
  | cons c r ih =>
    have h1 : digitsVal (c :: r) = charVal c * 10 ^ r.length + digitsVal r := by
      rw [digitsVal, List.foldl_cons]
      simpa using ih (10 * 0 + charVal c)
    rw [List.foldl_cons, ih (10 * a + charVal c), h1, List.length_cons]
    ring

theorem digitsVal_append (l1 l2 : Str) :
    digitsVal (l1 ++ l2) = digitsVal l1 * 10 ^ l2.length + digitsVal l2 := by
  rw [digitsVal, List.foldl_append]
  exact digitsVal_from l2 (digitsVal l1)

theorem digitsVal_replicate_zero (k : ℕ) : digitsVal (List.replicate k '0') = 0 := by
  induction k with
  | zero => rfl
  | succ k ih =>
    rw [List.replicate_succ, digitsVal, List.foldl_cons]
    have h0 : 10 * 0 + charVal '0' = 0 := by decide
    rw [h0]
    exact ih

theorem digitsVal_padLeft_zero (k : ℕ) (l : Str) :
    digitsVal (padLeftWith '0' k l) = digitsVal l := by
  rw [padLeftWith, digitsVal_append, digitsVal_replicate_zero]
  simp

theorem digitsVal_rev_map (L : List ℕ) (h : ∀ d ∈ L, d < 10) :
    digitsVal ((L.map digitChar).reverse) = Nat.ofDigits 10 L := by
  induction L with
  | nil => simp [digitsVal, Nat.ofDigits_nil]
  | cons d L ih =>
    rw [List.map_cons, List.reverse_cons, digitsVal_append,
      ih (fun x hx => h x (List.mem_cons_of_mem _ hx)), Nat.ofDigits_cons]
    have hd : digitsVal [digitChar d] = d := by
      show 10 * 0 + charVal (digitChar d) = d
      rw [charVal_digitChar d (h d (List.mem_cons_self _ _))]
      omega
    rw [hd]
    simp
    ring

theorem digitsVal_natChars (n : ℕ) : digitsVal (natChars n) = n := by
  rw [natChars_eq]
  split
  · rename_i h
    subst h
    decide
  · rw [digitsVal_rev_map _ (fun d hd => Nat.digits_lt_base (by norm_num) hd),
      Nat.ofDigits_digits]

theorem allDigits_iff (l : Str) : allDigits l = true ↔ ∀ c ∈ l, c.isDigit = true := by
  rw [allDigits, List.all_eq_true]

theorem allDigits_natChars (n : ℕ) : allDigits (natChars n) = true :=
  (allDigits_iff _).mpr (mem_natChars_isDigit n)

theorem allDigits_append (l1 l2 : Str) :
    allDigits (l1 ++ l2) = (allDigits l1 && allDigits l2) := by
  simp [allDigits]

theorem allDigits_replicate_zero (k : ℕ) : allDigits (List.replicate k '0') = true := by
  rw [allDigits_iff]
  intro c hc
  rw [List.eq_of_mem_replicate hc]
  decide

theorem dropWhile_isPyWs_eq_self (l : Str) (h : ∀ c ∈ l, isPyWs c = false) :
    l.dropWhile isPyWs = l := by
  cases l with
  | nil => rfl
  | cons c r =>
    rw [List.dropWhile_cons, h c (List.mem_cons_self c r)]
    simp

theorem pyStrip_no_ws (l : Str) (h : ∀ c ∈ l, isPyWs c = false) : pyStrip l = l := by
  rw [pyStrip, dropWhile_isPyWs_eq_self l h,
    dropWhile_isPyWs_eq_self _ (fun c hc => h c (List.mem_reverse.mp hc)),
    List.reverse_reverse]

theorem dropWhile_isPyWs_replicate_space (k : ℕ) (l : Str) :
    (List.replicate k ' ' ++ l).dropWhile isPyWs = l.dropWhile isPyWs := by
  induction k with
  | zero => simp
  | succ k ih =>
    rw [List.replicate_succ, List.cons_append, List.dropWhile_cons]
    have hs : isPyWs ' ' = true := by decide
    rw [hs, if_pos rfl]
    exact ih

theorem pyStrip_space_pad (k : ℕ) (l : Str) (h : ∀ c ∈ l, isPyWs c = false) :
    pyStrip (List.replicate k ' ' ++ l) = l := by
  rw [pyStrip, dropWhile_isPyWs_replicate_space, dropWhile_isPyWs_eq_self l h,
    dropWhile_isPyWs_eq_self _ (fun c hc => h c (List.mem_reverse.mp hc)),
    List.reverse_reverse]

theorem no_ws_of_allDigits (l : Str) (h : allDigits l = true) :
    ∀ c ∈ l, isPyWs c = false :=
  fun c hc => isDigit_not_ws c ((allDigits_iff l).mp h c hc)

theorem pyIntCore_digits (l : Str) (hne : l ≠ []) (hd : allDigits l = true) :
    pyIntCore l = some ((digitsVal l : ℤ)) := by
  cases l with
  | nil => exact absurd rfl hne
  | cons c r =>
    have hc : c.isDigit = true := (allDigits_iff _).mp hd c (List.mem_cons_self c r)
    rw [pyIntCore, if_neg (isDigit_facts c hc).1, if_neg (isDigit_facts c hc).2.1,
      digitsVal?]
    simp [hd]

theorem pyInt?_all_digits (l : Str) (hne : l ≠ []) (hd : allDigits l = true) :
    pyInt? l = some ((digitsVal l : ℤ)) := by
  rw [pyInt?, pyStrip_no_ws l (no_ws_of_allDigits l hd), pyIntCore_digits l hne hd]

theorem pyInt?_padLeft_zero (w n : ℕ) :
    pyInt? (padLeftWith '0' w (natChars n)) = some ((n : ℤ)) := by
  have hd : allDigits (padLeftWith '0' w (natChars n)) = true := by
    rw [padLeftWith, allDigits_append, allDigits_replicate_zero, allDigits_natChars]
    rfl
  have hne : padLeftWith '0' w (natChars n) ≠ [] := by
    rw [padLeftWith]
    simp [natChars_ne_nil n]
  rw [pyInt?_all_digits _ hne hd, digitsVal_padLeft_zero, digitsVal_natChars]

theorem pyInt?_padLeft_space (w n : ℕ) :
    pyInt? (padLeftWith ' ' w (natChars n)) = some ((n : ℤ)) := by
  rw [pyInt?, padLeftWith,
    pyStrip_space_pad _ _ (no_ws_of_allDigits _ (allDigits_natChars n)),
    pyIntCore_digits _ (natChars_ne_nil n) (allDigits_natChars n), digitsVal_natChars]

theorem pyTrunc_intCast (m : ℤ) : pyTrunc ((m : ℚ)) = m := by
  rw [pyTrunc, Rat.num_intCast, Rat.den_intCast]
  exact Int.tdiv_one m

theorem pyTrunc_natCast (n : ℕ) : pyTrunc ((n : ℚ)) = n := by
  have := pyTrunc_intCast (n : ℤ)
  simpa using this

theorem pyTrunc_nonneg (q : ℚ) (h : 0 ≤ q) : 0 ≤ pyTrunc q :=
  Int.tdiv_nonneg (Rat.num_nonneg.mpr h) (by positivity)

theorem pyTrunc_le (q : ℚ) (c : ℤ) (h0 : 0 ≤ q) (h : q ≤ (c : ℚ)) : pyTrunc q ≤ c := by
  have hnum : q.num ≤ c * (q.den : ℤ) := by
    have := Rat.le_def.mp h
    rw [Rat.num_intCast, Rat.den_intCast] at this
    simpa using this
  have hden : (0 : ℤ) < (q.den : ℤ) := by exact_mod_cast Rat.den_pos q
  calc pyTrunc q = q.num.tdiv (q.den : ℤ) := rfl
    _ = q.num / (q.den : ℤ) := Int.tdiv_eq_ediv (Rat.num_nonneg.mpr h0) (le_of_lt hden)
    _ ≤ (c * (q.den : ℤ)) / (q.den : ℤ) := Int.ediv_le_ediv hden hnum
    _ = c := Int.mul_ediv_cancel c (ne_of_gt hden)

theorem pyTrunc_eq_zero (q : ℚ) (h1 : -1 < q) (h2 : q < 1) : pyTrunc q = 0 := by
  have hden : (0 : ℤ) < (q.den : ℤ) := by exact_mod_cast Rat.den_pos q
  have hlt : q.num < (q.den : ℤ) := by
    have := Rat.lt_def.mp h2
    rw [Rat.num_ofNat, Rat.den_ofNat] at this
    simpa using this
  have hgt : -(q.den : ℤ) < q.num := by
    have := Rat.lt_def.mp h1
    have hn1 : (-1 : ℚ).num = -1 := by decide
    have hd1 : (-1 : ℚ).den = 1 := by decide
    rw [hn1, hd1] at this
    simpa using this
  rw [pyTrunc]
  rcases le_or_lt 0 q.num with hn | hn
  · exact Int.tdiv_eq_zero_of_lt hn hlt
  · have hrw : q.num = -(-q.num) := by ring
    rw [hrw, Int.neg_tdiv, Int.tdiv_eq_zero_of_lt (by omega) (by omega)]
    rfl

theorem span_dot (ds1 ds2 : Str) (h : ∀ c ∈ ds1, c ≠ '.') :
    (ds1 ++ '.' :: ds2).takeWhile (fun c => c ≠ '.') = ds1 ∧
    (ds1 ++ '.' :: ds2).dropWhile (fun c => c ≠ '.') = '.' :: ds2 := by
  induction ds1 with
  | nil =>
    constructor
    · rw [List.nil_append, List.takeWhile_cons]
      simp
    · rw [List.nil_append, List.dropWhile_cons]
      simp
  | cons c r ih =>
    have hme : ∀ x ∈ r, x ≠ '.' := fun x hx => h x (List.mem_cons_of_mem _ hx)
    have hc : c ≠ '.' := h c (List.mem_cons_self c r)
    constructor
    · rw [List.cons_append, List.takeWhile_cons, if_pos (by simpa using hc), (ih hme).1]
    · rw [List.cons_append, List.dropWhile_cons, if_pos (by simpa using hc)]
      exact (ih hme).2

theorem floatMag?_parts (ds1 ds2 : Str) (h1 : allDigits ds1 = true)
    (h2 : allDigits ds2 = true) (hne : ds1 ≠ []) :
    floatMag? (ds1 ++ '.' :: ds2) =
      some (digitsVal ds1 * 10 ^ ds2.length + digitsVal ds2, ds2.length) := by
  have hdot : ∀ c ∈ ds1, c ≠ '.' :=
    fun c hc => (isDigit_facts c ((allDigits_iff _).mp h1 c hc)).2.2.1
  have hs := span_dot ds1 ds2 hdot
  unfold floatMag?
  rw [hs.2]
  show (if allDigits ((ds1 ++ '.' :: ds2).takeWhile (fun c => c ≠ '.')) && allDigits ds2 &&
      !(((ds1 ++ '.' :: ds2).takeWhile (fun c => c ≠ '.')).isEmpty && ds2.isEmpty) then
        some (digitsVal ((ds1 ++ '.' :: ds2).takeWhile (fun c => c ≠ '.')) * 10 ^ ds2.length +
          digitsVal ds2, ds2.length)
      else none) = _
  rw [hs.1, if_pos]
  rw [h1, h2, List.isEmpty_eq_false.mpr hne]
  rfl

theorem no_ws_dot_parts (ds1 ds2 : Str) (h1 : allDigits ds1 = true)
    (h2 : allDigits ds2 = true) : ∀ c ∈ ds1 ++ '.' :: ds2, isPyWs c = false := by
  intro c hc
  rcases List.mem_append.mp hc with hc | hc
  · exact isDigit_not_ws c ((allDigits_iff _).mp h1 c hc)
  · rcases List.mem_cons.mp hc with rfl | hc
    · decide
    · exact isDigit_not_ws c ((allDigits_iff _).mp h2 c hc)

theorem pyFloatCore_parts (ds1 ds2 : Str) (h1 : allDigits ds1 = true)
    (h2 : allDigits ds2 = true) (hne : ds1 ≠ []) :
    pyFloatCore (ds1 ++ '.' :: ds2) =
      some (decQ (((digitsVal ds1 * 10 ^ ds2.length + digitsVal ds2 : ℕ) : ℤ)) ds2.length) := by
  cases ds1 with
  | nil => exact absurd rfl hne
  | cons c r =>
    have hc : c.isDigit = true := (allDigits_iff _).mp h1 c (List.mem_cons_self c r)
    rw [List.cons_append, pyFloatCore, if_neg (isDigit_facts c hc).1,
      if_neg (isDigit_facts c hc).2.1, ← List.cons_append,
      floatMag?_parts _ _ h1 h2 hne]
    rfl

theorem pyFloat?_parts (ds1 ds2 : Str) (h1 : allDigits ds1 = true)
    (h2 : allDigits ds2 = true) (hne : ds1 ≠ []) :
    pyFloat? (ds1 ++ '.' :: ds2) =
      some (decQ (((digitsVal ds1 * 10 ^ ds2.length + digitsVal ds2 : ℕ) : ℤ)) ds2.length) := by
  rw [pyFloat?, pyStrip_no_ws _ (no_ws_dot_parts ds1 ds2 h1 h2),
    pyFloatCore_parts ds1 ds2 h1 h2 hne]

theorem pyFloat?_space_parts (k : ℕ) (ds1 ds2 : Str) (h1 : allDigits ds1 = true)
    (h2 : allDigits ds2 = true) (hne : ds1 ≠ []) :
    pyFloat? (List.replicate k ' ' ++ (ds1 ++ '.' :: ds2)) =
      some (decQ (((digitsVal ds1 * 10 ^ ds2.length + digitsVal ds2 : ℕ) : ℤ)) ds2.length) := by
  rw [pyFloat?, pyStrip_space_pad _ _ (no_ws_dot_parts ds1 ds2 h1 h2),
    pyFloatCore_parts ds1 ds2 h1 h2 hne]

theorem decQ_eq_div (n : ℤ) (e : ℕ) : decQ n e = (n : ℚ) / 10 ^ e := by
  rw [decQ, Rat.mkRat_eq_div]
  norm_num

theorem decQ_nonneg (n : ℤ) (e : ℕ) (h : 0 ≤ n) : 0 ≤ decQ n e := by
  rw [decQ_eq_div]
  apply div_nonneg
  · exact_mod_cast h
  · positivity

theorem decQ_shift (m : ℤ) (e z : ℕ) : decQ (m * 10 ^ z) (e + z) = decQ m e := by
  rw [decQ_eq_div, decQ_eq_div, pow_add]
  push_cast
  rw [div_eq_div_iff (by positivity) (by positivity)]
  ring

theorem decQ_natAbs (m : ℤ) (e : ℕ) (h : 0 ≤ m) :
    decQ ((m.natAbs : ℤ)) e = decQ m e := by
  rw [Int.natAbs_of_nonneg h]

theorem num_cross_of_eq_decQ (q : ℚ) (m : ℤ) (p : ℕ) (h : q = decQ m p) :
    q.num * 10 ^ p = m * (q.den : ℤ) := by
  have hd0 : ((q.den : ℤ) : ℚ) ≠ 0 := by
    have := Rat.den_pos q
    positivity
  have hq : (q.num : ℚ) / ((q.den : ℤ) : ℚ) = (m : ℚ) / (10 : ℚ) ^ p := by
    push_cast
    rw [Rat.num_div_den, h, decQ_eq_div]
  rw [div_eq_div_iff hd0 (by positivity)] at hq
  exact_mod_cast hq

theorem rdHE10_decQ (m : ℤ) (p : ℕ) : rdHE10 (decQ m p) p = m := by
  have hden : (0 : ℤ) < ((decQ m p).den : ℤ) := by exact_mod_cast Rat.den_pos _
  have hcross : (decQ m p).num * 10 ^ p = m * ((decQ m p).den : ℤ) :=
    num_cross_of_eq_decQ _ m p rfl
  rw [rdHE10, hcross, Int.mul_emod_left, if_pos (by omega)]
  exact Int.mul_ediv_cancel m (ne_of_gt hden)

theorem rdHE10_cases (q : ℚ) (p : ℕ) :
    rdHE10 q p = q.num * 10 ^ p / (q.den : ℤ) ∨
    rdHE10 q p = q.num * 10 ^ p / (q.den : ℤ) + 1 := by
  rw [rdHE10]
  split
  · exact Or.inl rfl
  · split
    · exact Or.inr rfl
    · split
      · exact Or.inl rfl
      · exact Or.inr rfl

theorem rdHE10_nonneg (q : ℚ) (p : ℕ) (h : 0 ≤ q) : 0 ≤ rdHE10 q p := by
  have hden : (0 : ℤ) < (q.den : ℤ) := by exact_mod_cast Rat.den_pos q
  have hN : 0 ≤ q.num * 10 ^ p := mul_nonneg (Rat.num_nonneg.mpr h) (by positivity)
  have hf : 0 ≤ q.num * 10 ^ p / (q.den : ℤ) := Int.ediv_nonneg hN (le_of_lt hden)
  rcases rdHE10_cases q p with hc | hc <;> omega

theorem round_div_le (N D M : ℤ) (hD : 0 < D) (hle : N ≤ M * D) :
    (if 2 * (N % D) < D then N / D
     else if D < 2 * (N % D) then N / D + 1
     else if (N / D) % 2 = 0 then N / D else N / D + 1) ≤ M := by
  have hf : N / D ≤ M := by
    calc N / D ≤ (M * D) / D := Int.ediv_le_ediv hD hle
      _ = M := Int.mul_ediv_cancel M (ne_of_gt hD)
  have hdm : D * (N / D) + N % D = N := Int.ediv_add_emod N D
  set f := N / D with hfd
  set r := N % D with hrd
  have hkey : 0 < r → f + 1 ≤ M := by
    intro hrpos
    by_contra hcon
    push_neg at hcon
    have hfe : f = M := le_antisymm hf (by linarith)
    rw [hfe, mul_comm D M] at hdm
    linarith
  split
  · exact hf
  · split
    · rename_i h1 h2
      exact hkey (by linarith)
    · split
      · exact hf
      · rename_i h1 h2 h3
        exact hkey (by linarith)

theorem rdHE10_le (q : ℚ) (p : ℕ) (c : ℤ) (h : q ≤ (c : ℚ)) :
    rdHE10 q p ≤ c * 10 ^ p := by
  have hden : (0 : ℤ) < (q.den : ℤ) := by exact_mod_cast Rat.den_pos q
  have hnum : q.num ≤ c * (q.den : ℤ) := by
    have := Rat.le_def.mp h
    rw [Rat.num_intCast, Rat.den_intCast] at this
    simpa using this
  have hN : q.num * 10 ^ p ≤ (c * 10 ^ p) * (q.den : ℤ) := by
    have hm := mul_le_mul_of_nonneg_right hnum (by positivity : (0 : ℤ) ≤ 10 ^ p)
    calc q.num * 10 ^ p ≤ c * (q.den : ℤ) * 10 ^ p := hm
      _ = (c * 10 ^ p) * (q.den : ℤ) := by ring
  unfold rdHE10
  exact round_div_le (q.num * 10 ^ p) ((q.den : ℤ)) (c * 10 ^ p) hden hN

theorem fixedRender_requant (p : ℕ) (q : ℚ) (h : 0 ≤ q) :
    fixedRender p (decQ (rdHE10 q p) p) = fixedRender p q := by
  have hm : rdHE10 (decQ (rdHE10 q p) p) p = rdHE10 q p := rdHE10_decQ _ p
  have h0 : 0 ≤ rdHE10 q p := rdHE10_nonneg q p h
  have hv : 0 ≤ decQ (rdHE10 q p) p := decQ_nonneg _ _ h0
  rw [fixedRender, fixedRender, if_neg (not_lt.mpr hv), if_neg (not_lt.mpr h), hm]

theorem fracDigits_requant (p : ℕ) (q : ℚ) :
    fracDigits p (decQ ((((rdHE10 q p).natAbs % 10 ^ p : ℕ) : ℤ)) p) = fracDigits p q := by
  have hm := rdHE10_decQ ((((rdHE10 q p).natAbs % 10 ^ p : ℕ) : ℤ)) p
  rw [fracDigits, fracDigits, hm]
  have hb : (rdHE10 q p).natAbs % 10 ^ p < 10 ^ p := Nat.mod_lt _ (by positivity)
  have he : ((((rdHE10 q p).natAbs % 10 ^ p : ℕ) : ℤ)).natAbs % 10 ^ p
      = (rdHE10 q p).natAbs % 10 ^ p := by
    rw [Int.natAbs_ofNat]
    exact Nat.mod_eq_of_lt hb
  rw [he]

theorem padLeft_len_exact (c : Char) (w : ℕ) (l : Str) (h : l.length ≤ w) :
    (padLeftWith c w l).length = w := by
  rw [length_padLeftWith]
  omega

theorem padRight_len_exact (c : Char) (w : ℕ) (l : Str) (h : l.length ≤ w) :
    (padRightWith c w l).length = w := by
  rw [length_padRightWith]
  omega

theorem intZeroPad_nonneg (w : ℕ) (i : ℤ) (h : 0 ≤ i) :
    intZeroPad w i = padLeftWith '0' w (natChars i.natAbs) := by
  rw [intZeroPad, if_neg (not_lt.mpr h)]

theorem intChars_nonneg (i : ℤ) (h : 0 ≤ i) : intChars i = natChars i.natAbs := by
  rw [intChars, if_neg (not_lt.mpr h)]

theorem fracDigits_length (p : ℕ) (q : ℚ) (hp : 1 ≤ p) : (fracDigits p q).length = p := by
  rw [fracDigits]
  exact padLeft_len_exact _ _ _ (natChars_length_le _ p hp (Nat.mod_lt _ (by positivity)))

theorem rdHE10_le_decQ (q : ℚ) (p : ℕ) (c : ℤ) (e : ℕ) (he : e ≤ p)
    (h : q ≤ decQ c e) : rdHE10 q p ≤ c * 10 ^ (p - e) := by
  have hden : (0 : ℤ) < (q.den : ℤ) := by exact_mod_cast Rat.den_pos q
  have hnum : q.num * 10 ^ e ≤ c * (q.den : ℤ) := by
    have h2 : (q.num : ℚ) / ((q.den : ℤ) : ℚ) ≤ (c : ℚ) / (10 : ℚ) ^ e := by
      push_cast
      rw [Rat.num_div_den]
      rw [decQ_eq_div] at h
      exact h
    rw [div_le_div_iff (by exact_mod_cast hden) (by positivity)] at h2
    exact_mod_cast h2
  have hN : q.num * 10 ^ p ≤ (c * 10 ^ (p - e)) * (q.den : ℤ) := by
    have hm := mul_le_mul_of_nonneg_right hnum (by positivity : (0 : ℤ) ≤ 10 ^ (p - e))
    calc q.num * 10 ^ p = q.num * 10 ^ e * 10 ^ (p - e) := by
          rw [mul_assoc, ← pow_add]
          congr 2
          omega
      _ ≤ c * (q.den : ℤ) * 10 ^ (p - e) := hm
      _ = (c * 10 ^ (p - e)) * (q.den : ℤ) := by ring
  unfold rdHE10
  exact round_div_le (q.num * 10 ^ p) ((q.den : ℤ)) (c * 10 ^ (p - e)) hden hN

theorem fixedRender_length_le (p k : ℕ) (q : ℚ) (h0 : 0 ≤ q) (hp : 1 ≤ p) (hk : 1 ≤ k)
    (hm : rdHE10 q p < 10 ^ (k + p)) : (fixedRender p q).length ≤ k + 1 + p := by
  rw [fixedRender, if_neg (not_lt.mpr h0)]
  simp only [List.length_append, List.length_cons]
  have hfrac : (padLeftWith '0' p (natChars ((rdHE10 q p).natAbs % 10 ^ p))).length = p :=
    padLeft_len_exact _ _ _ (natChars_length_le _ p hp (Nat.mod_lt _ (by positivity)))
  have hnn : 0 ≤ rdHE10 q p := rdHE10_nonneg q p h0
  have habs : (rdHE10 q p).natAbs < 10 ^ (k + p) := by
    have hm2 : rdHE10 q p < ((10 ^ (k + p) : ℕ) : ℤ) := by
      have hcast : ((10 ^ (k + p) : ℕ) : ℤ) = (10 : ℤ) ^ (k + p) := by push_cast; ring
      rw [hcast]
      exact hm
    omega
  have ha : (rdHE10 q p).natAbs / 10 ^ p < 10 ^ k := by
    rw [Nat.div_lt_iff_lt_mul (by positivity)]
    calc (rdHE10 q p).natAbs < 10 ^ (k + p) := habs
      _ = 10 ^ k * 10 ^ p := by rw [pow_add]
  have hlen := natChars_length_le _ k hk ha
  omega

theorem decQ_mono (m m2 : ℤ) (e : ℕ) (h : m ≤ m2) : decQ m e ≤ decQ m2 e := by
  rw [decQ_eq_div, decQ_eq_div]
  apply div_le_div_of_nonneg_right ?_ ?_
  all_goals first
    | exact_mod_cast h
    | positivity

theorem pySlice_extract (a b : ℕ) (pre mid post : Str)
    (ha : pre.length = a) (hb : b = a + mid.length) :
    pySlice a b (pre ++ (mid ++ post)) = mid := by
  rw [pySlice, List.drop_left' ha, hb, Nat.add_sub_cancel_left]
  exact List.take_left' rfl

theorem get?_extract (a : ℕ) (pre : Str) (c : Char) (post : Str)
    (ha : pre.length = a) :
    (pre ++ (c :: post)).get? a = some c := by
  rw [List.get?_append_right (le_of_eq ha), ha]
  simp

theorem splitNl_no_nl (l : Str) (h : '\n' ∉ l) : splitNl l = [l] := by
  induction l with
  | nil => rfl
  | cons c r ih =>
    have hc : ¬(c = '\n') := fun hc => h (by rw [hc]; exact List.mem_cons_self _ _)
    have hr : '\n' ∉ r := fun hr => h (List.mem_cons_of_mem c hr)
    rw [splitNl, if_neg hc, ih hr]

theorem splitNl_append (a r : Str) (h : '\n' ∉ a) :
    splitNl (a ++ '\n' :: r) = a :: splitNl r := by
  induction a with
  | nil =>
    rw [List.nil_append, splitNl, if_pos rfl]
  | cons c t ih =>
    have hc : ¬(c = '\n') := fun hc => h (by rw [hc]; exact List.mem_cons_self _ _)
    have ht : '\n' ∉ t := fun hm => h (List.mem_cons_of_mem c hm)
    rw [List.cons_append, splitNl, if_neg hc, ih ht]

theorem nl_append (a b : Str) (h1 : '\n' ∉ a) (h2 : '\n' ∉ b) : '\n' ∉ a ++ b := by
  intro h
  rcases List.mem_append.mp h with h | h
  · exact h1 h
  · exact h2 h

theorem nl_cons (c : Char) (b : Str) (h1 : c ≠ '\n') (h2 : '\n' ∉ b) : '\n' ∉ c :: b := by
  intro h
  rcases List.mem_cons.mp h with h | h
  · exact h1 h.symm
  · exact h2 h

theorem nl_natChars (n : ℕ) : '\n' ∉ natChars n := by
  intro h
  exact absurd (mem_natChars_isDigit n _ h) (by decide)

theorem nl_replicate (k : ℕ) (c : Char) (hc : c ≠ '\n') : '\n' ∉ List.replicate k c := by
  intro h
  exact hc (List.eq_of_mem_replicate h).symm

theorem nl_padLeft (c : Char) (w : ℕ) (l : Str) (hc : c ≠ '\n') (h : '\n' ∉ l) :
    '\n' ∉ padLeftWith c w l :=
  nl_append _ _ (nl_replicate _ _ hc) h

theorem nl_padRight (c : Char) (w : ℕ) (l : Str) (hc : c ≠ '\n') (h : '\n' ∉ l) :
    '\n' ∉ padRightWith c w l :=
  nl_append _ _ h (nl_replicate _ _ hc)

theorem nl_fixedRender (p : ℕ) (q : ℚ) (h0 : 0 ≤ q) : '\n' ∉ fixedRender p q := by
  rw [fixedRender, if_neg (not_lt.mpr h0)]
  exact nl_append _ _ (nl_natChars _)
    (nl_cons _ _ (by decide) (nl_padLeft _ _ _ (by decide) (nl_natChars _)))

theorem nl_fracDigits (p : ℕ) (q : ℚ) : '\n' ∉ fracDigits p q := by
  rw [fracDigits]
  exact nl_padLeft _ _ _ (by decide) (nl_natChars _)

theorem nl_intZeroPad (w : ℕ) (i : ℤ) (h : 0 ≤ i) : '\n' ∉ intZeroPad w i := by
  rw [intZeroPad_nonneg w i h]
  exact nl_padLeft _ _ _ (by decide) (nl_natChars _)

theorem nl_digitChar (m : ℕ) : '\n' ∉ [digitChar (m % 10)] := by
  intro h
  rcases List.mem_singleton.mp h with h
  have := digitChar_isDigit (m % 10) (Nat.mod_lt _ (by norm_num))
  rw [← h] at this
  exact absurd this (by decide)

theorem nl_fix_checksum (l : Str) (h : '\n' ∉ l) : '\n' ∉ fix_checksum l := by
  rw [fix_checksum]
  apply nl_append
  · apply nl_padRight _ _ _ (by decide)
    intro hm
    exact h (List.mem_of_mem_take hm)
  · rw [compute_checksum]
    exact nl_digitChar _

theorem except_bind_ok {α β ε : Type} (x : α) (f : α → Except ε β) :
    (Except.ok x >>= f) = f x := rfl

theorem pyCharAt_ok (l : Str) (i : ℕ) (c : Char) (h : l.get? i = some c) :
    pyCharAt l i = .ok c := by
  rw [pyCharAt, h]

theorem exInt_ok (l : Str) (v : ℤ) (h : pyInt? l = some v) : exInt l = .ok v := by
  rw [exInt, h]

theorem exFloat_ok (l : Str) (v : ℚ) (h : pyFloat? l = some v) : exFloat l = .ok v := by
  rw [exFloat, h]

theorem parseParams_eval (input l0 l1 l2 : Str)
    (hs : splitNl input = [l0, l1, l2])
    (sat yr sn rv : ℤ) (cls c33 : Char) (day mm1 inc ra ec ap ma mo : ℚ)
    (hsat : exInt (pySlice 2 7 l1) = .ok sat)
    (hcls : pyCharAt l1 7 = .ok cls)
    (hyr : exInt (pySlice 18 20 l1) = .ok yr)
    (hday : exFloat (pySlice 20 32 l1) = .ok day)
    (hc33 : pyCharAt l1 33 = .ok c33)
    (hmm1 : exFloat (c33 :: '0' :: pySlice 34 43 l1) = .ok mm1)
    (hsn : exInt (pySlice 64 68 l1) = .ok sn)
    (hinc : exFloat (pySlice 8 16 l2) = .ok inc)
    (hra : exFloat (pySlice 17 25 l2) = .ok ra)
    (hec : exFloat ('0' :: '.' :: pySlice 26 33 l2) = .ok ec)
    (hap : exFloat (pySlice 34 42 l2) = .ok ap)
    (hma : exFloat (pySlice 43 51 l2) = .ok ma)
    (hmo : exFloat (pySlice 52 63 l2) = .ok mo)
    (hrv : exInt (pySlice 63 68 l2) = .ok rv) :
    parseParams input = .ok
      { name := pyRstrip l0, sat_num := (sat : ℚ), classification := [cls],
        int_designator := pySlice 9 17 l1, epoch_year := (yr : ℚ), epoch_day := day,
        mm_deriv1 := mm1, mm_deriv2 := .str (pySlice 44 52 l1), B := .str (pySlice 53 61 l1),
        inclination := inc, right_asc_node := ra, eccentricity := ec, arg_perigee := ap,
        mean_anomaly := ma, mean_motion := mo, rev_num := (rv : ℚ), set_num := (sn : ℚ) } := by
  unfold parseParams
  rw [hs]
  have h0 : lineAt [l0, l1, l2] 0 = .ok l0 := rfl
  have h1 : lineAt [l0, l1, l2] 1 = .ok l1 := rfl
  have h2 : lineAt [l0, l1, l2] 2 = .ok l2 := rfl
  simp only [h0, h1, h2, except_bind_ok, hsat, hcls, hyr, hday, hc33, hmm1, hsn, hinc,
    hra, hec, hap, hma, hmo, hrv]
  rfl

theorem mmCheck_str_ok (s : Str) (k : ℕ) (h8 : s.length = 8) (hd : s.getD 6 ' ' = '-') :
    mmCheck (.str s) k = none := by
  rw [mmCheck]
  rw [if_neg (by omega), h8]
  show (if s.getD 6 ' ' = '-' then none else some (PyExn.validationError (k + 1))) = none
  rw [if_pos hd]

theorem substMM_form (v : MMVal) (h : MMForm v) (hn : mmNoNl v) :
    ∃ s, substMM v = .str s ∧ s.length = 8 ∧ s.getD 6 ' ' = '-' ∧ '\n' ∉ s := by
  cases v with
  | num q =>
    have hq : q = 0 := h
    exact ⟨sentinel, by rw [substMM, if_pos hq], by decide, by decide, by decide⟩
  | str s =>
    exact ⟨s, rfl, h.1, h.2, hn⟩

theorem mm1SignChar_fraction (q : ℚ) (h1 : -1 < q) (h2 : q < 1) : mm1SignChar q = ' ' := by
  rw [mm1SignChar, pyTrunc_eq_zero q h1 h2]
  rfl

theorem padRight_idem (c : Char) (w : ℕ) (l : Str) :
    padRightWith c w (padRightWith c w l) = padRightWith c w l := by
  apply padRightWith_of_le
  rw [length_padRightWith]
  omega

theorem pyRstrip_pad (nm : Str) (k : ℕ) :
    pyRstrip (nm ++ List.replicate k ' ') = pyRstrip nm := by
  rw [pyRstrip, pyRstrip, List.reverse_append, List.reverse_replicate,
    dropWhile_isPyWs_replicate_space]

theorem mem_takeWhile_facts (p : Char → Bool) (l : Str) (c : Char) (h : c ∈ l.takeWhile p) :
    c ∈ l ∧ p c = true := by
  induction l with
  | nil => simp [List.takeWhile_nil] at h
  | cons a r ih =>
    rw [List.takeWhile_cons] at h
    by_cases hp : p a = true
    · rw [if_pos hp] at h
      rcases List.mem_cons.mp h with rfl | h
      · exact ⟨List.mem_cons_self _ _, hp⟩
      · exact ⟨List.mem_cons_of_mem _ (ih h).1, (ih h).2⟩
    · rw [if_neg hp] at h
      simp at h

theorem rstrip_decomp (nm : Str) (hws : ∀ c ∈ nm, isPyWs c = true → c = ' ') :
    ∃ j, nm = pyRstrip nm ++ List.replicate j ' ' := by
  refine ⟨(nm.reverse.takeWhile isPyWs).length, ?_⟩
  conv_lhs => rw [← List.reverse_reverse nm,
    ← List.takeWhile_append_dropWhile isPyWs nm.reverse]
  rw [List.reverse_append]
  congr 1
  rw [List.eq_replicate_iff]
  constructor
  · simp
  · intro b hb
    have hf := mem_takeWhile_facts isPyWs nm.reverse b (List.mem_reverse.mp hb)
    exact hws b (List.mem_reverse.mp hf.1) hf.2

theorem rstrip_pad_name (nm : Str) (hle : nm.length ≤ 24)
    (hws : ∀ c ∈ nm, isPyWs c = true → c = ' ') :
    padRightWith ' ' 24 (pyRstrip (padRightWith ' ' 24 nm)) = padRightWith ' ' 24 nm := by
  have hstrip : pyRstrip (padRightWith ' ' 24 nm) = pyRstrip nm := by
    rw [padRightWith, pyRstrip_pad]
  rw [hstrip]
  obtain ⟨j, hd⟩ := rstrip_decomp nm hws
  have hlen : (pyRstrip nm).length + j = nm.length := by
    conv_rhs => rw [hd]
    simp
  rw [padRightWith, padRightWith]
  set n24 := 24 - nm.length with hn24
  conv_rhs => rw [hd]
  rw [List.append_assoc, ← List.replicate_add]
  congr 2
  omega

theorem decQ_zero_exp (c : ℤ) : decQ c 0 = (c : ℚ) := by
  rw [decQ_eq_div]
  simp

theorem decQ_lt_one (b : ℕ) (e : ℕ) (h : b < 10 ^ e) : decQ ((b : ℤ)) e < 1 := by
  rw [decQ_eq_div, div_lt_one (by positivity)]
  have : ((b : ℚ)) < ((10 ^ e : ℕ) : ℚ) := by exact_mod_cast h
  calc ((b : ℤ) : ℚ) = ((b : ℕ) : ℚ) := by push_cast; ring
    _ < ((10 ^ e : ℕ) : ℚ) := this
    _ = (10 : ℚ) ^ e := by push_cast; ring

theorem nl_single_digitChar (d : ℕ) (h : d < 10) : '\n' ∉ [digitChar d] := by
  intro hm
  rcases List.mem_singleton.mp hm with hm
  have := digitChar_isDigit d h
  rw [← hm] at this
  exact absurd this (by decide)

theorem pyFloat?_padded_fixed (pp z k : ℕ) (q : ℚ) (h0 : 0 ≤ q) (hp : 1 ≤ pp) :
    pyFloat? (List.replicate k ' ' ++ (fixedRender pp q ++ List.replicate z '0')) =
      some (decQ (rdHE10 q pp) pp) := by
  have hfr : fixedRender pp q = natChars ((rdHE10 q pp).natAbs / 10 ^ pp) ++
      '.' :: padLeftWith '0' pp (natChars ((rdHE10 q pp).natAbs % 10 ^ pp)) := by
    rw [fixedRender, if_neg (not_lt.mpr h0)]
  set a := (rdHE10 q pp).natAbs / 10 ^ pp with ha
  set b := (rdHE10 q pp).natAbs % 10 ^ pp with hb
  have hassoc : fixedRender pp q ++ List.replicate z '0' =
      natChars a ++ '.' :: (padLeftWith '0' pp (natChars b) ++ List.replicate z '0') := by
    rw [hfr]
    simp [List.append_assoc]
  rw [hassoc]
  have hd1 : allDigits (natChars a) = true := allDigits_natChars a
  have hd2 : allDigits (padLeftWith '0' pp (natChars b) ++ List.replicate z '0') = true := by
    rw [allDigits_append, padLeftWith, allDigits_append, allDigits_replicate_zero,
      allDigits_natChars, allDigits_replicate_zero]
    rfl
  rw [pyFloat?, pyStrip_space_pad _ _ (no_ws_dot_parts _ _ hd1 hd2),
    pyFloatCore_parts _ _ hd1 hd2 (natChars_ne_nil a)]
  refine congrArg some ?_
  have hblt : b < 10 ^ pp := by
    rw [hb]
    exact Nat.mod_lt _ (by positivity)
  have hlb : (natChars b).length ≤ pp := natChars_length_le _ pp hp hblt
  have hlds2 : (padLeftWith '0' pp (natChars b) ++ List.replicate z '0').length = pp + z := by
    rw [List.length_append, padLeft_len_exact _ _ _ hlb, List.length_replicate]
  have hvds2 : digitsVal (padLeftWith '0' pp (natChars b) ++ List.replicate z '0')
      = b * 10 ^ z := by
    rw [digitsVal_append, digitsVal_padLeft_zero, digitsVal_natChars, digitsVal_replicate_zero,
      List.length_replicate]
    ring
  rw [digitsVal_natChars, hlds2, hvds2]
  have hm : a * 10 ^ pp + b = (rdHE10 q pp).natAbs := by
    rw [ha, hb, mul_comm]
    exact Nat.div_add_mod _ _
  have hcast : ((a * 10 ^ (pp + z) + b * 10 ^ z : ℕ) : ℤ) =
      (((rdHE10 q pp).natAbs : ℤ)) * 10 ^ z := by
    rw [← hm]
    push_cast
    ring
  rw [hcast, decQ_shift, decQ_natAbs _ _ (rdHE10_nonneg q pp h0)]

theorem drop_step (l : Str) (a k : ℕ) (F R : Str) (hd : l.drop a = F ++ R)
    (hF : F.length = k) : l.drop (a + k) = R := by
  have h1 : (l.drop a).drop k = l.drop (a + k) := List.drop_drop k a l
  rw [← h1, hd, ← hF, List.drop_left]

theorem drop_step_cons (l : Str) (a : ℕ) (c : Char) (R : Str) (hd : l.drop a = c :: R) :
    l.drop (a + 1) = R :=
  drop_step l a 1 [c] R hd rfl

theorem slice_of_drop (l : Str) (a b : ℕ) (M R : Str) (hd : l.drop a = M ++ R)
    (hM : M.length = b - a) : pySlice a b l = M := by
  rw [pySlice, hd, ← hM, List.take_left]

theorem get?_of_drop (l : Str) (a : ℕ) (c : Char) (R : Str) (hd : l.drop a = c :: R) :
    l.get? a = some c := by
  have h := List.get?_drop l a 0
  rw [hd] at h
  simpa using h.symm

theorem allDigits_fracDigits (p : ℕ) (q : ℚ) : allDigits (fracDigits p q) = true := by
  rw [fracDigits, padLeftWith, allDigits_append, allDigits_replicate_zero, allDigits_natChars]
  rfl

/-- C1: the ISS preset does not reproduce the canonical fixture lines.  The
code renders the epoch field left-justified zero-filled (221.0000000000, not
22001.00000000), drops the minus sign of the first derivative (int of a
fraction truncates to 0), and rounds the mean motion to six decimals
(15.72125400, not 15.72125391), so to-str differs from the fixture. -/
theorem iss_render_diverges_from_fixture :
    (genTleRun issParams).2 = none ∧
    issState.lines =
      ["ISS                     ".toList,
       "1 25544U 98067A   221.0000000000  .00002182  00000-0 -11606-4 0  2923".toList,
       "2 25544  51.6416 247.4627 0006703 130.5360 325.0288 15.72125400563538".toList] ∧
    toStr issState ≠
      (String.toList
        ("ISS                     \n" ++
         "1 25544U 98067A   22001.00000000 -.00002182  00000-0 -11606-4 0  2921\n" ++
         "2 25544  51.6416 247.4627 0006703 130.5360 325.0288 15.72125391563537")) ∧
    issState.lines.getD 1 [] ≠ fixtureLine1 ∧
    issState.lines.getD 2 [] ≠ fixtureLine2 := by
  refine ⟨by decide, by decide, by decide, by decide, by decide⟩

/-- C2, counterexample: a record valid for every domain of the data-model
table of the spec (mean motion 12345678901.5 revolutions per day, which the
spec bounds only by positivity) encodes successfully, but decoding the
encoded text raises ValueError: the mean motion overflows its 11 columns,
the checksum pass truncates line 2 to 68 characters, and the fixed
revolution-number columns 63 to 68 of the truncated line then hold the
unparsable text ".5000".  Encode-decode-encode therefore fails on a valid
record instead of reproducing the lines. -/
theorem roundtrip_fails_on_wide_mean_motion :
    SpecValidRecord cexRoundTripParams ∧
    (genTleRun cexRoundTripParams).2 = none ∧
    pySlice 63 68 ((genTleRun cexRoundTripParams).1.lines.getD 2 []) = ".5000".toList ∧
    (createTleFromStr (genTleRun cexRoundTripParams).1
        (toStr (genTleRun cexRoundTripParams).1)).2 = some .valueError := by
  refine ⟨by decide, by decide, by decide, by decide⟩

/-- C3, counterexample: re-deriving a valid ISS object from text whose epoch
day is 400 raises the date validation error, yet afterwards the object holds
the new epoch day and its previously valid line list has been cleared: the
mutation happened before the exception. -/
theorem validation_failure_clobbers_state :
    issState.lines ≠ [] ∧
    (createTleFromStr issState badDayInput).2 = some (.validationError 4) ∧
    (createTleFromStr issState badDayInput).1.lines = [] ∧
    (createTleFromStr issState badDayInput).1.epoch_day = 400 := by
  refine ⟨by decide, by decide, by decide, by decide⟩

/-- C3, amended: a failing validation still prevents line generation, but only
after every stored field has been overwritten from the arguments and the
line list has been reset to empty: the previous line set is lost, and the
state left behind is the freshly overwritten one. -/
theorem gen_tle_mutates_before_raising (prev : TLEState) (p : Params) (e : PyExn)
    (h : validate (storedOf p) = some e) :
    callGenTle prev p = (storedOf p, some e) ∧ (storedOf p).lines = [] ∧
    (storedOf p).epoch_day = p.epoch_day := by
  exact ⟨genTleRun_of_validate_some p e h, rfl, rfl⟩

theorem gen_tle_mutates_before_raising_witness :
    validate (storedOf day400Params) = some (.validationError 4) ∧
    (callGenTle issState day400Params = (storedOf day400Params, some (.validationError 4)) ∧
     (storedOf day400Params).lines = [] ∧ (storedOf day400Params).epoch_day = day400Params.epoch_day) :=
  ⟨by decide, gen_tle_mutates_before_raising issState day400Params (.validationError 4) (by decide)⟩

/-- C4: the checksum of a full 69-character line is the weight sum of its first
68 characters modulo 10 (digits count their value, a minus sign counts one,
everything else zero), so it is independent of whatever trailing checksum
digit is present; the checksum fixer overwrites that digit with the computed
one; and a line of all zero digits has checksum 0. -/
theorem checksum_spec (l : Str) (c : Char) (h : l.length = 68) :
    compute_checksum (l ++ [c]) = (l.map tleCharVal).sum % 10 ∧
    (∀ c2 : Char, compute_checksum (l ++ [c2]) = compute_checksum (l ++ [c])) ∧
    fix_checksum (l ++ [c]) = l ++ [digitChar ((l.map tleCharVal).sum % 10)] ∧
    compute_checksum (List.replicate 68 '0') = 0 := by
  have ht : ∀ c2 : Char, (l ++ [c2]).take 68 = l := by
    intro c2
    exact List.take_left' h
  have hc : ∀ c2 : Char, compute_checksum (l ++ [c2]) = (l.map tleCharVal).sum % 10 := by
    intro c2
    rw [compute_checksum, ht]
  refine ⟨hc c, fun c2 => (hc c2).trans (hc c).symm, ?_, by decide⟩
  rw [fix_checksum, ht, padRightWith_of_le _ _ _ (by omega), hc]

theorem checksum_spec_witness :
    (List.replicate 68 '0' : Str).length = 68 ∧
    (compute_checksum (List.replicate 68 '0' ++ ['7']) =
        ((List.replicate 68 '0' : Str).map tleCharVal).sum % 10 ∧
     (∀ c2 : Char, compute_checksum (List.replicate 68 '0' ++ [c2]) =
        compute_checksum (List.replicate 68 '0' ++ ['7'])) ∧
     fix_checksum (List.replicate 68 '0' ++ ['7']) =
        List.replicate 68 '0' ++ [digitChar (((List.replicate 68 '0' : Str).map tleCharVal).sum % 10)] ∧
     compute_checksum (List.replicate 68 '0') = 0) :=
  ⟨by decide, checksum_spec (List.replicate 68 '0') '7' (by decide)⟩

/-- C5: with mm_deriv1 = -0.00002182 (the ISS preset value) the rendered
derivative field of line 1 is a space followed by .00002182: the sign branch
tests int(mm_deriv1) < 0, and int truncates -0.00002182 to 0, so the minus
sign claimed by the spec is never emitted for fractional negatives. -/
theorem negative_deriv1_renders_space :
    issParams.mm_deriv1 = decQ (-2182) 8 ∧ issParams.mm_deriv1 < 0 ∧
    pyTrunc issParams.mm_deriv1 = 0 ∧
    mm1SignChar issParams.mm_deriv1 = ' ' ∧
    pySlice 33 43 (issState.lines.getD 1 []) = " .00002182".toList ∧
    pySlice 33 43 fixtureLine1 = "-.00002182".toList := by
  refine ⟨by decide, by decide, by decide, by decide, by decide, by decide⟩

/-- C6: a derivative or drag argument supplied as the numeric zero is stored as
the 8-character sentinel text. -/
theorem zero_sentinel_substitution (p : Params) :
    (p.mm_deriv2 = .num 0 → (genTleRun p).1.mm_deriv2 = .str sentinel) ∧
    (p.B = .num 0 → (genTleRun p).1.B = .str sentinel) ∧
    sentinel.length = 8 := by
  refine ⟨fun h => ?_, fun h => ?_, by decide⟩
  · rw [genTleRun_fst_mm2, h]
    decide
  · rw [genTleRun_fst_B, h]
    decide

theorem zero_sentinel_substitution_witness :
    defaultParams.mm_deriv2 = .num 0 ∧
    ((defaultParams.mm_deriv2 = .num 0 →
        (genTleRun defaultParams).1.mm_deriv2 = .str sentinel) ∧
     (defaultParams.B = .num 0 → (genTleRun defaultParams).1.B = .str sentinel) ∧
     sentinel.length = 8) :=
  ⟨by decide, zero_sentinel_substitution defaultParams⟩

/-- C7: constructing with epoch day 400 raises a validation error, and so does
constructing with the two-character classification "US" (whatever the other
arguments are, some validation error is raised). -/
theorem range_rejection (p : Params) :
    (p.epoch_day = 400 → (genTleRun p).2.isSome) ∧
    (p.classification = "US".toList → (genTleRun p).2.isSome) := by
  constructor
  · intro h
    cases hv : validate (storedOf p) with
    | some e => rw [genTleRun_of_validate_some p e hv]; rfl
    | none =>
      have hf := (validate_none_facts _ hv).2.1
      have hd : (storedOf p).epoch_day = p.epoch_day := rfl
      rw [hd, h] at hf
      norm_num at hf
  · intro h
    cases hv : validate (storedOf p) with
    | some e => rw [genTleRun_of_validate_some p e hv]; rfl
    | none =>
      have hf := (validate_none_facts _ hv).2.2
      have hd : (storedOf p).classification = p.classification := rfl
      rw [hd, h] at hf
      simp at hf

theorem range_rejection_witness :
    (day400Params.epoch_day = 400 ∧ (genTleRun day400Params).2.isSome) ∧
    (classUSParams.classification = "US".toList ∧ (genTleRun classUSParams).2.isSome) :=
  ⟨⟨by decide, (range_rejection day400Params).1 (by decide)⟩,
   ⟨by decide, (range_rejection classUSParams).2 (by decide)⟩⟩

/-- C8, counterexample: a record with inclination 200 degrees, outside the
0 to 180 domain of the spec, is accepted: construction succeeds with no
validation error and renders lines. -/
theorem inclination_200_accepted :
    incl200Params.inclination = 200 ∧
    (genTleRun incl200Params).2 = none ∧
    (genTleRun incl200Params).1.lines.length = 3 := by
  refine ⟨by decide, by decide, by decide⟩

/-- C8, amended: construction validates no numeric range at all beyond the
epoch checks: whenever the derivative/drag fields pass their form checks,
the epoch year is at most 99, the epoch day at most 366, and the
classification is one character, construction succeeds, whatever the values
of inclination and the other orbital fields. -/
theorem validation_checks_characterized (p : Params)
    (h1 : mmCheck (substMM p.mm_deriv2) 0 = none)
    (h2 : mmCheck (substMM p.B) 2 = none)
    (h3 : p.epoch_year ≤ 99) (h4 : p.epoch_day ≤ 366)
    (h5 : p.classification.length = 1) :
    (genTleRun p).2 = none := by
  have hv : validate (storedOf p) = none := validate_none_of_checks _ h1 h2 h3 h4 h5
  rw [genTleRun_of_validate_none p hv]

theorem validation_checks_characterized_witness :
    (mmCheck (substMM incl500Params.mm_deriv2) 0 = none ∧
     mmCheck (substMM incl500Params.B) 2 = none ∧
     incl500Params.epoch_year ≤ 99 ∧ incl500Params.epoch_day ≤ 366 ∧
     incl500Params.classification.length = 1) ∧
    (genTleRun incl500Params).2 = none :=
  ⟨⟨by decide, by decide, by decide, by decide, by decide⟩,
   validation_checks_characterized incl500Params (by decide) (by decide) (by decide)
     (by decide) (by decide)⟩

/-- C9, counterexample: a 25-character name yields a 25-character line 0: the
width-24 format pads but never truncates. -/
theorem long_name_line0_not_24 :
    name25Params.name.length = 25 ∧
    (genTleRun name25Params).1.lines.getD 0 [] = name25Params.name ∧
    ((genTleRun name25Params).1.lines.getD 0 []).length = 25 := by
  refine ⟨by decide, by decide, by decide⟩

/-- C9, amended: line 0 is the name left-justified and space-padded to a
minimum of 24 characters; a name of at most 24 characters gives exactly 24
characters, but a longer name is kept whole, not truncated. -/
theorem line0_padding_no_truncation (p : Params) (h : (genTleRun p).2 = none) :
    (genTleRun p).1.lines.getD 0 [] = padRightWith ' ' 24 p.name ∧
    (p.name.length ≤ 24 → ((genTleRun p).1.lines.getD 0 []).length = 24) ∧
    (24 ≤ p.name.length → (genTleRun p).1.lines.getD 0 [] = p.name) := by
  cases hv : validate (storedOf p) with
  | some e =>
    rw [genTleRun_of_validate_some p e hv] at h
    exact absurd h (by simp)
  | none =>
    have hl := genTleRun_fst_lines p hv
    rw [hl]
    simp only [List.getD_cons_zero]
    refine ⟨by trivial, fun hle => ?_, fun hge => ?_⟩
    · rw [length_padRightWith]
      omega
    · rw [padRightWith_of_le _ _ _ hge]

theorem line0_padding_no_truncation_witness :
    (genTleRun issParams).2 = none ∧
    ((genTleRun issParams).1.lines.getD 0 [] = padRightWith ' ' 24 issParams.name ∧
     (issParams.name.length ≤ 24 → ((genTleRun issParams).1.lines.getD 0 []).length = 24) ∧
     (24 ≤ issParams.name.length → (genTleRun issParams).1.lines.getD 0 [] = issParams.name)) :=
  ⟨by decide, line0_padding_no_truncation issParams (by decide)⟩

/-- C10: after any successful run of the gen-tle routine, lines 1 and 2 each
consist of the first 68 characters of the raw formatted content, truncated
or space-padded to exactly 68 characters, followed by one checksum digit,
and are therefore exactly 69 characters long whatever widths the field
values formatted to. -/
theorem encoded_lines_structure (p : Params) (h : (genTleRun p).2 = none) :
    (genTleRun p).1.lines.length = 3 ∧
    (genTleRun p).1.lines.getD 1 [] =
      padRightWith ' ' 68 ((rawLine1 (storedOf p)).take 68) ++
        [digitChar (compute_checksum (rawLine1 (storedOf p)))] ∧
    (genTleRun p).1.lines.getD 2 [] =
      padRightWith ' ' 68 ((rawLine2 (storedOf p)).take 68) ++
        [digitChar (compute_checksum (rawLine2 (storedOf p)))] ∧
    ((genTleRun p).1.lines.getD 1 []).length = 69 ∧
    ((genTleRun p).1.lines.getD 2 []).length = 69 := by
  cases hv : validate (storedOf p) with
  | some e =>
    rw [genTleRun_of_validate_some p e hv] at h
    exact absurd h (by simp)
  | none =>
    have hl := genTleRun_fst_lines p hv
    rw [hl]
    simp only [List.getD_cons_zero, List.getD_cons_succ]
    exact ⟨by simp, rfl, rfl, fix_checksum_length _, fix_checksum_length _⟩

theorem encoded_lines_structure_witness :
    (genTleRun issParams).2 = none ∧
    ((genTleRun issParams).1.lines.length = 3 ∧
     (genTleRun issParams).1.lines.getD 1 [] =
       padRightWith ' ' 68 ((rawLine1 (storedOf issParams)).take 68) ++
         [digitChar (compute_checksum (rawLine1 (storedOf issParams)))] ∧
     (genTleRun issParams).1.lines.getD 2 [] =
       padRightWith ' ' 68 ((rawLine2 (storedOf issParams)).take 68) ++
         [digitChar (compute_checksum (rawLine2 (storedOf issParams)))] ∧
     ((genTleRun issParams).1.lines.getD 1 []).length = 69 ∧
     ((genTleRun issParams).1.lines.getD 2 []).length = 69) :=
  ⟨by decide, encoded_lines_structure issParams (by decide)⟩
/-- C2: the amended round trip.  For a record that passes validation and whose
fields also fit the fixed wire columns (the FitsFormat bounds: integer fields
within their column widths, mean motion below 10000, angle and epoch fields in
their documented ranges, text fields free of newlines and trailing-whitespace
ambiguity), encoding succeeds, decoding the encoded text succeeds, and the
re-derivation from the decoded record reproduces the same three lines byte for
byte. -/
theorem encode_decode_encode_id (p : Params) (h : FitsFormat p) :
    (genTleRun p).2 = none ∧
    (createTleFromStr (genTleRun p).1 (toStr (genTleRun p).1)).2 = none ∧
    (createTleFromStr (genTleRun p).1 (toStr (genTleRun p).1)).1.lines =
      (genTleRun p).1.lines := by
  obtain ⟨s2, hs2, hs2len, hs2dash, hs2nl⟩ := substMM_form _ h.mm2_form h.mm2_nl
  obtain ⟨s3, hs3, hs3len, hs3dash, hs3nl⟩ := substMM_form _ h.b_form h.b_nl
  obtain ⟨ccls, hccls⟩ := List.length_eq_one.mp h.cls_len
  have hcclsne : ccls ≠ '\n' :=
    fun hcc => h.cls_nl (by rw [hccls, hcc]; exact List.mem_cons_self _ _)
  have htsat0 : 0 ≤ pyTrunc p.sat_num := pyTrunc_nonneg _ h.sat_nonneg
  have htsatle : pyTrunc p.sat_num ≤ 99999 :=
    pyTrunc_le _ 99999 h.sat_nonneg (by exact_mod_cast h.sat_le)
  have htyr0 : 0 ≤ pyTrunc p.epoch_year := pyTrunc_nonneg _ h.yr_nonneg
  have htyrle : pyTrunc p.epoch_year ≤ 99 :=
    pyTrunc_le _ 99 h.yr_nonneg (by exact_mod_cast h.yr_le)
  have htset0 : 0 ≤ pyTrunc p.set_num := pyTrunc_nonneg _ h.set_nonneg
  have htsetle : pyTrunc p.set_num ≤ 9999 :=
    pyTrunc_le _ 9999 h.set_nonneg (by exact_mod_cast h.set_le)
  have htrev0 : 0 ≤ pyTrunc p.rev_num := pyTrunc_nonneg _ h.rev_nonneg
  have htrevle : pyTrunc p.rev_num ≤ 99999 :=
    pyTrunc_le _ 99999 h.rev_nonneg (by exact_mod_cast h.rev_le)
  have hsatlt : (pyTrunc p.sat_num).natAbs < 10 ^ 5 := by
    have hp : (10 : ℕ) ^ 5 = 100000 := by norm_num
    omega
  have hyrlt : (pyTrunc p.epoch_year).natAbs < 10 ^ 2 := by
    have hp : (10 : ℕ) ^ 2 = 100 := by norm_num
    omega
  have hsetlt : (pyTrunc p.set_num).natAbs < 10 ^ 4 := by
    have hp : (10 : ℕ) ^ 4 = 10000 := by norm_num
    omega
  have hrevlt : (pyTrunc p.rev_num).natAbs < 10 ^ 5 := by
    have hp : (10 : ℕ) ^ 5 = 100000 := by norm_num
    omega
  have hday0 : 0 ≤ p.epoch_day := le_trans (by norm_num) h.day_ge
  have hmo0 : 0 ≤ p.mean_motion := le_of_lt h.mo_pos
  have hm6le : rdHE10 p.epoch_day 6 ≤ 366000000 := by
    have h1 := rdHE10_le_decQ p.epoch_day 6 366 0 (by omega)
      (by rw [decQ_zero_exp]; exact_mod_cast h.day_le)
    have hp : (10 : ℤ) ^ (6 - 0) = 1000000 := by norm_num
    omega
  have hm4ile : rdHE10 p.inclination 4 ≤ 1800000 := by
    have h1 := rdHE10_le_decQ p.inclination 4 180 0 (by omega)
      (by rw [decQ_zero_exp]; exact_mod_cast h.incl_le)
    have hp : (10 : ℤ) ^ (4 - 0) = 10000 := by norm_num
    omega
  have hm4rle : rdHE10 p.right_asc_node 4 ≤ 3600000 := by
    have h1 := rdHE10_le_decQ p.right_asc_node 4 360 0 (by omega)
      (by rw [decQ_zero_exp]; exact_mod_cast h.raan_le)
    have hp : (10 : ℤ) ^ (4 - 0) = 10000 := by norm_num
    omega
  have hm4ale : rdHE10 p.arg_perigee 4 ≤ 3600000 := by
    have h1 := rdHE10_le_decQ p.arg_perigee 4 360 0 (by omega)
      (by rw [decQ_zero_exp]; exact_mod_cast h.argp_le)
    have hp : (10 : ℤ) ^ (4 - 0) = 10000 := by norm_num
    omega
  have hm4mle : rdHE10 p.mean_anomaly 4 ≤ 3600000 := by
    have h1 := rdHE10_le_decQ p.mean_anomaly 4 360 0 (by omega)
      (by rw [decQ_zero_exp]; exact_mod_cast h.ma_le)
    have hp : (10 : ℤ) ^ (4 - 0) = 10000 := by norm_num
    omega
  have hm6nle : rdHE10 p.mean_motion 6 ≤ 9999999999 := by
    have h1 := rdHE10_le_decQ p.mean_motion 6 9999999999 6 (by omega) h.mo_le
    have hp : (10 : ℤ) ^ (6 - 6) = 1 := by norm_num
    omega
  have hmday0 : 0 ≤ rdHE10 p.epoch_day 6 := rdHE10_nonneg _ _ hday0
  have hmi0 : 0 ≤ rdHE10 p.inclination 4 := rdHE10_nonneg _ _ h.incl_nonneg
  have hmr0 : 0 ≤ rdHE10 p.right_asc_node 4 := rdHE10_nonneg _ _ h.raan_nonneg
  have hma0 : 0 ≤ rdHE10 p.arg_perigee 4 := rdHE10_nonneg _ _ h.argp_nonneg
  have hmm0 : 0 ≤ rdHE10 p.mean_anomaly 4 := rdHE10_nonneg _ _ h.ma_nonneg
  have hmn0 : 0 ≤ rdHE10 p.mean_motion 6 := rdHE10_nonneg _ _ hmo0
  obtain ⟨A2, hA2⟩ : ∃ x : Str,
      x = padLeftWith '0' 5 (natChars (pyTrunc p.sat_num).natAbs) := ⟨_, rfl⟩
  obtain ⟨A5, hA5⟩ : ∃ x : Str, x = padRightWith ' ' 8 p.int_designator := ⟨_, rfl⟩
  obtain ⟨A7, hA7⟩ : ∃ x : Str,
      x = padLeftWith '0' 2 (natChars (pyTrunc p.epoch_year).natAbs) := ⟨_, rfl⟩
  obtain ⟨A8, hA8⟩ : ∃ x : Str, x = padRightWith '0' 12 (fixedRender 6 p.epoch_day) := ⟨_, rfl⟩
  obtain ⟨A11, hA11⟩ : ∃ x : Str, x = fracDigits 8 p.mm_deriv1 := ⟨_, rfl⟩
  obtain ⟨A17, hA17⟩ : ∃ x : Str,
      x = padLeftWith ' ' 4 (natChars (pyTrunc p.set_num).natAbs) := ⟨_, rfl⟩
  obtain ⟨Gi, hGi⟩ : ∃ x : Str, x = padLeftWith ' ' 8 (fixedRender 4 p.inclination) := ⟨_, rfl⟩
  obtain ⟨Gr, hGr⟩ : ∃ x : Str,
      x = padLeftWith ' ' 8 (fixedRender 4 p.right_asc_node) := ⟨_, rfl⟩
  obtain ⟨E7, hE7⟩ : ∃ x : Str, x = fracDigits 7 p.eccentricity := ⟨_, rfl⟩
  obtain ⟨Ga, hGa⟩ : ∃ x : Str, x = padLeftWith ' ' 8 (fixedRender 4 p.arg_perigee) := ⟨_, rfl⟩
  obtain ⟨Gm, hGm⟩ : ∃ x : Str, x = padLeftWith ' ' 8 (fixedRender 4 p.mean_anomaly) := ⟨_, rfl⟩
  obtain ⟨Gn, hGn⟩ : ∃ x : Str, x = padRightWith '0' 11 (fixedRender 6 p.mean_motion) := ⟨_, rfl⟩
  obtain ⟨R5, hR5⟩ : ∃ x : Str,
      x = padLeftWith '0' 5 (natChars (pyTrunc p.rev_num).natAbs) := ⟨_, rfl⟩
  obtain ⟨N0, hN0⟩ : ∃ x : Str, x = padRightWith ' ' 24 p.name := ⟨_, rfl⟩
  have hlA2 : A2.length = 5 := by
    rw [hA2]; exact padLeft_len_exact _ _ _ (natChars_length_le _ 5 (by norm_num) hsatlt)
  have hlA5 : A5.length = 8 := by
    rw [hA5]; exact padRight_len_exact _ _ _ h.des_le
  have hlA7 : A7.length = 2 := by
    rw [hA7]; exact padLeft_len_exact _ _ _ (natChars_length_le _ 2 (by norm_num) hyrlt)
  have hfrday : (fixedRender 6 p.epoch_day).length ≤ 10 := by
    have hb : rdHE10 p.epoch_day 6 < 10 ^ (3 + 6) := by
      have hp : (10 : ℤ) ^ (3 + 6) = 1000000000 := by norm_num
      omega
    have h1 := fixedRender_length_le 6 3 p.epoch_day hday0 (by norm_num) (by norm_num) hb
    omega
  have hlA8 : A8.length = 12 := by
    rw [hA8]; exact padRight_len_exact _ _ _ (by omega)
  have hlA11 : A11.length = 8 := by
    rw [hA11]; exact fracDigits_length 8 _ (by norm_num)
  have hlA17 : A17.length = 4 := by
    rw [hA17]; exact padLeft_len_exact _ _ _ (natChars_length_le _ 4 (by norm_num) hsetlt)
  have hfri : (fixedRender 4 p.inclination).length ≤ 8 := by
    have hb : rdHE10 p.inclination 4 < 10 ^ (3 + 4) := by
      have hp : (10 : ℤ) ^ (3 + 4) = 10000000 := by norm_num
      omega
    have h1 := fixedRender_length_le 4 3 p.inclination h.incl_nonneg (by norm_num) (by norm_num) hb
    omega
  have hfrr : (fixedRender 4 p.right_asc_node).length ≤ 8 := by
    have hb : rdHE10 p.right_asc_node 4 < 10 ^ (3 + 4) := by
      have hp : (10 : ℤ) ^ (3 + 4) = 10000000 := by norm_num
      omega
    have h1 := fixedRender_length_le 4 3 p.right_asc_node h.raan_nonneg (by norm_num) (by norm_num) hb
    omega
  have hfra : (fixedRender 4 p.arg_perigee).length ≤ 8 := by
    have hb : rdHE10 p.arg_perigee 4 < 10 ^ (3 + 4) := by
      have hp : (10 : ℤ) ^ (3 + 4) = 10000000 := by norm_num
      omega
    have h1 := fixedRender_length_le 4 3 p.arg_perigee h.argp_nonneg (by norm_num) (by norm_num) hb
    omega
  have hfrm : (fixedRender 4 p.mean_anomaly).length ≤ 8 := by
    have hb : rdHE10 p.mean_anomaly 4 < 10 ^ (3 + 4) := by
      have hp : (10 : ℤ) ^ (3 + 4) = 10000000 := by norm_num
      omega
    have h1 := fixedRender_length_le 4 3 p.mean_anomaly h.ma_nonneg (by norm_num) (by norm_num) hb
    omega
  have hfrn : (fixedRender 6 p.mean_motion).length ≤ 11 := by
    have hb : rdHE10 p.mean_motion 6 < 10 ^ (4 + 6) := by
      have hp : (10 : ℤ) ^ (4 + 6) = 10000000000 := by norm_num
      omega
    have h1 := fixedRender_length_le 6 4 p.mean_motion hmo0 (by norm_num) (by norm_num) hb
    omega
  have hlGi : Gi.length = 8 := by rw [hGi]; exact padLeft_len_exact _ _ _ hfri
  have hlGr : Gr.length = 8 := by rw [hGr]; exact padLeft_len_exact _ _ _ hfrr
  have hlE7 : E7.length = 7 := by rw [hE7]; exact fracDigits_length 7 _ (by norm_num)
  have hlGa : Ga.length = 8 := by rw [hGa]; exact padLeft_len_exact _ _ _ hfra
  have hlGm : Gm.length = 8 := by rw [hGm]; exact padLeft_len_exact _ _ _ hfrm
  have hlGn : Gn.length = 11 := by rw [hGn]; exact padRight_len_exact _ _ _ hfrn
  have hlR5 : R5.length = 5 := by
    rw [hR5]; exact padLeft_len_exact _ _ _ (natChars_length_le _ 5 (by norm_num) hrevlt)
  have hmc1 : mmCheck (substMM p.mm_deriv2) 0 = none := by
    rw [hs2]; exact mmCheck_str_ok s2 0 hs2len hs2dash
  have hmc2 : mmCheck (substMM p.B) 2 = none := by
    rw [hs3]; exact mmCheck_str_ok s3 2 hs3len hs3dash
  have hval : validate (storedOf p) = none :=
    validate_none_of_checks _ hmc1 hmc2 h.yr_le h.day_le h.cls_len
  have hg2 : (genTleRun p).2 = none := by
    rw [genTleRun_of_validate_none p hval]
  have hraw1 : rawLine1 (storedOf p) =
      '1' :: ' ' :: (A2 ++ ccls :: ' ' :: (A5 ++ ' ' :: (A7 ++ (A8 ++ ' ' :: ' ' :: '.' ::
        (A11 ++ ' ' :: (s2 ++ ' ' :: (s3 ++ ' ' :: '0' :: ' ' :: A17))))))) := by
    show ['1', ' '] ++ intZeroPad 5 (pyTrunc p.sat_num)
        ++ padRightWith ' ' 1 p.classification ++ [' ']
        ++ padRightWith ' ' 8 p.int_designator ++ [' ']
        ++ intZeroPad 2 (pyTrunc p.epoch_year)
        ++ padRightWith '0' 12 (fixedRender 6 p.epoch_day) ++ [' ']
        ++ [mm1SignChar p.mm_deriv1, '.'] ++ fracDigits 8 p.mm_deriv1 ++ [' ']
        ++ padLeftWith ' ' 7 (mmStr (substMM p.mm_deriv2)) ++ [' ']
        ++ padLeftWith ' ' 7 (mmStr (substMM p.B))
        ++ [' ', '0', ' '] ++ padLeftWith ' ' 4 (intChars (pyTrunc p.set_num)) = _
    rw [intZeroPad_nonneg _ _ htsat0, intZeroPad_nonneg _ _ htyr0,
      mm1SignChar_fraction _ h.mm1_gt h.mm1_lt, intChars_nonneg _ htset0,
      hs2, hs3, padRightWith_of_le ' ' 1 _ (le_of_eq h.cls_len.symm), hccls,
      show mmStr (MMVal.str s2) = s2 from rfl, show mmStr (MMVal.str s3) = s3 from rfl,
      padLeftWith_of_le ' ' 7 s2 (by omega), padLeftWith_of_le ' ' 7 s3 (by omega),
      ← hA2, ← hA5, ← hA7, ← hA8, ← hA11, ← hA17]
    simp only [List.cons_append, List.append_assoc, List.nil_append, List.singleton_append]
  have hraw2 : rawLine2 (storedOf p) =
      '2' :: ' ' :: (A2 ++ ' ' :: (Gi ++ ' ' :: (Gr ++ ' ' :: (E7 ++ ' ' :: (Ga ++ ' ' ::
        (Gm ++ ' ' :: (Gn ++ R5))))))) := by
    show ['2', ' '] ++ intZeroPad 5 (pyTrunc p.sat_num) ++ [' ']
        ++ padLeftWith ' ' 8 (fixedRender 4 p.inclination) ++ [' ']
        ++ padLeftWith ' ' 8 (fixedRender 4 p.right_asc_node) ++ [' ']
        ++ fracDigits 7 p.eccentricity ++ [' ']
        ++ padLeftWith ' ' 8 (fixedRender 4 p.arg_perigee) ++ [' ']
        ++ padLeftWith ' ' 8 (fixedRender 4 p.mean_anomaly) ++ [' ']
        ++ padRightWith '0' 11 (fixedRender 6 p.mean_motion)
        ++ intZeroPad 5 (pyTrunc p.rev_num) = _
    rw [intZeroPad_nonneg _ _ htsat0, intZeroPad_nonneg _ _ htrev0,
      ← hA2, ← hGi, ← hGr, ← hE7, ← hGa, ← hGm, ← hGn, ← hR5]
    simp only [List.cons_append, List.append_assoc, List.nil_append, List.singleton_append]
  have hlraw1 : (rawLine1 (storedOf p)).length = 68 := by
    rw [hraw1]
    simp only [List.length_cons, List.length_append, hlA2, hlA5, hlA7, hlA8, hlA11,
      hs2len, hs3len, hlA17]
  have hlraw2 : (rawLine2 (storedOf p)).length = 68 := by
    rw [hraw2]
    simp only [List.length_cons, List.length_append, hlA2, hlGi, hlGr, hlE7, hlGa, hlGm,
      hlGn, hlR5]
  obtain ⟨ck1, hck1⟩ : ∃ c : Char,
      c = digitChar (compute_checksum (rawLine1 (storedOf p))) := ⟨_, rfl⟩
  obtain ⟨ck2, hck2⟩ : ∃ c : Char,
      c = digitChar (compute_checksum (rawLine2 (storedOf p))) := ⟨_, rfl⟩
  obtain ⟨L1, hL1⟩ : ∃ x : Str, x = fix_checksum (rawLine1 (storedOf p)) := ⟨_, rfl⟩
  obtain ⟨L2, hL2⟩ : ∃ x : Str, x = fix_checksum (rawLine2 (storedOf p)) := ⟨_, rfl⟩
  have hline1 : L1 =
      '1' :: ' ' :: (A2 ++ ccls :: ' ' :: (A5 ++ ' ' :: (A7 ++ (A8 ++ ' ' :: ' ' :: '.' ::
        (A11 ++ ' ' :: (s2 ++ ' ' :: (s3 ++ ' ' :: '0' :: ' ' :: (A17 ++ [ck1])))))))) := by
    rw [hL1, fix_checksum_of_length _ hlraw1, ← hck1, hraw1]
    simp only [List.cons_append, List.append_assoc, List.nil_append, List.singleton_append]
  have hline2 : L2 =
      '2' :: ' ' :: (A2 ++ ' ' :: (Gi ++ ' ' :: (Gr ++ ' ' :: (E7 ++ ' ' :: (Ga ++ ' ' ::
        (Gm ++ ' ' :: (Gn ++ (R5 ++ [ck2])))))))) := by
    rw [hL2, fix_checksum_of_length _ hlraw2, ← hck2, hraw2]
    simp only [List.cons_append, List.append_assoc, List.nil_append, List.singleton_append]
  have hd0 : L1.drop 0 =
      '1' :: ' ' :: (A2 ++ ccls :: ' ' :: (A5 ++ ' ' :: (A7 ++ (A8 ++ ' ' :: ' ' :: '.' ::
        (A11 ++ ' ' :: (s2 ++ ' ' :: (s3 ++ ' ' :: '0' :: ' ' :: (A17 ++ [ck1])))))))) := by
    rw [List.drop_zero, hline1]
  have hd2 := drop_step L1 0 2 ['1', ' '] _ hd0 rfl
  have hsl27 : pySlice 2 7 L1 = A2 := slice_of_drop L1 2 7 A2 _ hd2 (by rw [hlA2])
  have hd7 := drop_step L1 2 5 A2 _ hd2 hlA2
  have hg7 : L1.get? 7 = some ccls := get?_of_drop L1 7 ccls _ hd7
  have hd9 := drop_step L1 7 2 [ccls, ' '] _ hd7 rfl
  have hsl917 : pySlice 9 17 L1 = A5 := slice_of_drop L1 9 17 A5 _ hd9 (by rw [hlA5])
  have hd17 := drop_step L1 9 8 A5 _ hd9 hlA5
  have hd18 := drop_step_cons L1 17 ' ' _ hd17
  have hsl1820 : pySlice 18 20 L1 = A7 := slice_of_drop L1 18 20 A7 _ hd18 (by rw [hlA7])
  have hd20 := drop_step L1 18 2 A7 _ hd18 hlA7
  have hsl2032 : pySlice 20 32 L1 = A8 := slice_of_drop L1 20 32 A8 _ hd20 (by rw [hlA8])
  have hd32 := drop_step L1 20 12 A8 _ hd20 hlA8
  have hd33 := drop_step_cons L1 32 ' ' _ hd32
  have hg33 : L1.get? 33 = some ' ' := get?_of_drop L1 33 ' ' _ hd33
  have hd34 := drop_step_cons L1 33 ' ' _ hd33
  have hsl3443 : pySlice 34 43 L1 = '.' :: A11 :=
    slice_of_drop L1 34 43 ('.' :: A11) _ hd34 (by rw [List.length_cons, hlA11])
  have hd43 := drop_step L1 34 9 ('.' :: A11) _ hd34 (by rw [List.length_cons, hlA11])
  have hd44 := drop_step_cons L1 43 ' ' _ hd43
  have hsl4452 : pySlice 44 52 L1 = s2 := slice_of_drop L1 44 52 s2 _ hd44 (by rw [hs2len])
  have hd52 := drop_step L1 44 8 s2 _ hd44 hs2len
  have hd53 := drop_step_cons L1 52 ' ' _ hd52
  have hsl5361 : pySlice 53 61 L1 = s3 := slice_of_drop L1 53 61 s3 _ hd53 (by rw [hs3len])
  have hd61 := drop_step L1 53 8 s3 _ hd53 hs3len
  have hd64 := drop_step L1 61 3 [' ', '0', ' '] _ hd61 rfl
  have hsl6468 : pySlice 64 68 L1 = A17 := slice_of_drop L1 64 68 A17 _ hd64 (by rw [hlA17])
  have he0 : L2.drop 0 =
      '2' :: ' ' :: (A2 ++ ' ' :: (Gi ++ ' ' :: (Gr ++ ' ' :: (E7 ++ ' ' :: (Ga ++ ' ' ::
        (Gm ++ ' ' :: (Gn ++ (R5 ++ [ck2])))))))) := by
    rw [List.drop_zero, hline2]
  have he2 := drop_step L2 0 2 ['2', ' '] _ he0 rfl
  have he7 := drop_step L2 2 5 A2 _ he2 hlA2
  have he8 := drop_step_cons L2 7 ' ' _ he7
  have hsl816 : pySlice 8 16 L2 = Gi := slice_of_drop L2 8 16 Gi _ he8 (by rw [hlGi])
  have he16 := drop_step L2 8 8 Gi _ he8 hlGi
  have he17 := drop_step_cons L2 16 ' ' _ he16
  have hsl1725 : pySlice 17 25 L2 = Gr := slice_of_drop L2 17 25 Gr _ he17 (by rw [hlGr])
  have he25 := drop_step L2 17 8 Gr _ he17 hlGr
  have he26 := drop_step_cons L2 25 ' ' _ he25
  have hsl2633 : pySlice 26 33 L2 = E7 := slice_of_drop L2 26 33 E7 _ he26 (by rw [hlE7])
  have he33 := drop_step L2 26 7 E7 _ he26 hlE7
  have he34 := drop_step_cons L2 33 ' ' _ he33
  have hsl3442 : pySlice 34 42 L2 = Ga := slice_of_drop L2 34 42 Ga _ he34 (by rw [hlGa])
  have he42 := drop_step L2 34 8 Ga _ he34 hlGa
  have he43 := drop_step_cons L2 42 ' ' _ he42
  have hsl4351 : pySlice 43 51 L2 = Gm := slice_of_drop L2 43 51 Gm _ he43 (by rw [hlGm])
  have he51 := drop_step L2 43 8 Gm _ he43 hlGm
  have he52 := drop_step_cons L2 51 ' ' _ he51
  have hsl5263 : pySlice 52 63 L2 = Gn := slice_of_drop L2 52 63 Gn _ he52 (by rw [hlGn])
  have he63 := drop_step L2 52 11 Gn _ he52 hlGn
  have hsl6368 : pySlice 63 68 L2 = R5 := slice_of_drop L2 63 68 R5 _ he63 (by rw [hlR5])
  have hA11dig : allDigits A11 = true := by rw [hA11]; exact allDigits_fracDigits 8 _
  have hE7dig : allDigits E7 = true := by rw [hE7]; exact allDigits_fracDigits 7 _
  have hPsat : exInt (pySlice 2 7 L1) = .ok (((pyTrunc p.sat_num).natAbs : ℤ)) := by
    apply exInt_ok
    rw [hsl27, hA2]
    exact pyInt?_padLeft_zero 5 _
  have hPcls : pyCharAt L1 7 = .ok ccls := pyCharAt_ok _ _ _ hg7
  have hPyr : exInt (pySlice 18 20 L1) = .ok (((pyTrunc p.epoch_year).natAbs : ℤ)) := by
    apply exInt_ok
    rw [hsl1820, hA7]
    exact pyInt?_padLeft_zero 2 _
  have hPday : exFloat (pySlice 20 32 L1) = .ok (decQ (rdHE10 p.epoch_day 6) 6) := by
    apply exFloat_ok
    rw [hsl2032, hA8, padRightWith]
    have hz : (fixedRender 6 p.epoch_day : Str) ++
        List.replicate (12 - (fixedRender 6 p.epoch_day).length) '0' =
        List.replicate 0 ' ' ++ (fixedRender 6 p.epoch_day ++
          List.replicate (12 - (fixedRender 6 p.epoch_day).length) '0') := by
      rw [List.replicate_zero, List.nil_append]
    rw [hz, pyFloat?_padded_fixed 6 _ 0 _ hday0 (by norm_num)]
  have hP33 : pyCharAt L1 33 = .ok ' ' := pyCharAt_ok _ _ _ hg33
  have hdvA11 : digitsVal A11 = (rdHE10 p.mm_deriv1 8).natAbs % 10 ^ 8 := by
    rw [hA11, fracDigits, digitsVal_padLeft_zero, digitsVal_natChars]
  have hPmm1 : exFloat (' ' :: '0' :: pySlice 34 43 L1) =
      .ok (decQ ((((rdHE10 p.mm_deriv1 8).natAbs % 10 ^ 8 : ℕ) : ℤ)) 8) := by
    apply exFloat_ok
    rw [hsl3443]
    have hshape : (' ' :: '0' :: '.' :: A11 : Str) =
        List.replicate 1 ' ' ++ (['0'] ++ '.' :: A11) := rfl
    rw [hshape, pyFloat?_space_parts 1 ['0'] A11 (by decide) hA11dig (by decide), hlA11, hdvA11]
    have h00 : digitsVal ['0'] = 0 := rfl
    rw [h00]
    norm_num
  have hPset : exInt (pySlice 64 68 L1) = .ok (((pyTrunc p.set_num).natAbs : ℤ)) := by
    apply exInt_ok
    rw [hsl6468, hA17]
    exact pyInt?_padLeft_space 4 _
  have hPinc : exFloat (pySlice 8 16 L2) = .ok (decQ (rdHE10 p.inclination 4) 4) := by
    apply exFloat_ok
    rw [hsl816, hGi, padLeftWith]
    have hz : (fixedRender 4 p.inclination : Str) = fixedRender 4 p.inclination ++
        List.replicate 0 '0' := by rw [List.replicate_zero, List.append_nil]
    rw [hz, pyFloat?_padded_fixed 4 0 _ _ h.incl_nonneg (by norm_num)]
  have hPra : exFloat (pySlice 17 25 L2) = .ok (decQ (rdHE10 p.right_asc_node 4) 4) := by
    apply exFloat_ok
    rw [hsl1725, hGr, padLeftWith]
    have hz : (fixedRender 4 p.right_asc_node : Str) = fixedRender 4 p.right_asc_node ++
        List.replicate 0 '0' := by rw [List.replicate_zero, List.append_nil]
    rw [hz, pyFloat?_padded_fixed 4 0 _ _ h.raan_nonneg (by norm_num)]
  have hdvE7 : digitsVal E7 = (rdHE10 p.eccentricity 7).natAbs % 10 ^ 7 := by
    rw [hE7, fracDigits, digitsVal_padLeft_zero, digitsVal_natChars]
  have hPec : exFloat ('0' :: '.' :: pySlice 26 33 L2) =
      .ok (decQ ((((rdHE10 p.eccentricity 7).natAbs % 10 ^ 7 : ℕ) : ℤ)) 7) := by
    apply exFloat_ok
    rw [hsl2633]
    have hshape : ('0' :: '.' :: E7 : Str) = ['0'] ++ '.' :: E7 := rfl
    rw [hshape, pyFloat?_parts ['0'] E7 (by decide) hE7dig (by decide), hlE7, hdvE7]
    have h00 : digitsVal ['0'] = 0 := rfl
    rw [h00]
    norm_num
  have hPap : exFloat (pySlice 34 42 L2) = .ok (decQ (rdHE10 p.arg_perigee 4) 4) := by
    apply exFloat_ok
    rw [hsl3442, hGa, padLeftWith]
    have hz : (fixedRender 4 p.arg_perigee : Str) = fixedRender 4 p.arg_perigee ++
        List.replicate 0 '0' := by rw [List.replicate_zero, List.append_nil]
    rw [hz, pyFloat?_padded_fixed 4 0 _ _ h.argp_nonneg (by norm_num)]
  have hPma : exFloat (pySlice 43 51 L2) = .ok (decQ (rdHE10 p.mean_anomaly 4) 4) := by
    apply exFloat_ok
    rw [hsl4351, hGm, padLeftWith]
    have hz : (fixedRender 4 p.mean_anomaly : Str) = fixedRender 4 p.mean_anomaly ++
        List.replicate 0 '0' := by rw [List.replicate_zero, List.append_nil]
    rw [hz, pyFloat?_padded_fixed 4 0 _ _ h.ma_nonneg (by norm_num)]
  have hPmo : exFloat (pySlice 52 63 L2) = .ok (decQ (rdHE10 p.mean_motion 6) 6) := by
    apply exFloat_ok
    rw [hsl5263, hGn, padRightWith]
    have hz : (fixedRender 6 p.mean_motion : Str) ++
        List.replicate (11 - (fixedRender 6 p.mean_motion).length) '0' =
        List.replicate 0 ' ' ++ (fixedRender 6 p.mean_motion ++
          List.replicate (11 - (fixedRender 6 p.mean_motion).length) '0') := by
      rw [List.replicate_zero, List.nil_append]
    rw [hz, pyFloat?_padded_fixed 6 _ 0 _ hmo0 (by norm_num)]
  have hPrev : exInt (pySlice 63 68 L2) = .ok (((pyTrunc p.rev_num).natAbs : ℤ)) := by
    apply exInt_ok
    rw [hsl6368, hR5]
    exact pyInt?_padLeft_zero 5 _
  have hnlA2 : '\n' ∉ A2 := by rw [hA2]; exact nl_padLeft _ _ _ (by decide) (nl_natChars _)
  have hnlA5 : '\n' ∉ A5 := by rw [hA5]; exact nl_padRight _ _ _ (by decide) h.des_nl
  have hnlA7 : '\n' ∉ A7 := by rw [hA7]; exact nl_padLeft _ _ _ (by decide) (nl_natChars _)
  have hnlA8 : '\n' ∉ A8 := by
    rw [hA8]; exact nl_padRight _ _ _ (by decide) (nl_fixedRender 6 _ hday0)
  have hnlA11 : '\n' ∉ A11 := by rw [hA11]; exact nl_fracDigits 8 _
  have hnlA17 : '\n' ∉ A17 := by rw [hA17]; exact nl_padLeft _ _ _ (by decide) (nl_natChars _)
  have hnlGi : '\n' ∉ Gi := by
    rw [hGi]; exact nl_padLeft _ _ _ (by decide) (nl_fixedRender 4 _ h.incl_nonneg)
  have hnlGr : '\n' ∉ Gr := by
    rw [hGr]; exact nl_padLeft _ _ _ (by decide) (nl_fixedRender 4 _ h.raan_nonneg)
  have hnlE7 : '\n' ∉ E7 := by rw [hE7]; exact nl_fracDigits 7 _
  have hnlGa : '\n' ∉ Ga := by
    rw [hGa]; exact nl_padLeft _ _ _ (by decide) (nl_fixedRender 4 _ h.argp_nonneg)
  have hnlGm : '\n' ∉ Gm := by
    rw [hGm]; exact nl_padLeft _ _ _ (by decide) (nl_fixedRender 4 _ h.ma_nonneg)
  have hnlGn : '\n' ∉ Gn := by
    rw [hGn]; exact nl_padRight _ _ _ (by decide) (nl_fixedRender 6 _ hmo0)
  have hnlR5 : '\n' ∉ R5 := by rw [hR5]; exact nl_padLeft _ _ _ (by decide) (nl_natChars _)
  have hnlraw1 : '\n' ∉ rawLine1 (storedOf p) := by
    rw [hraw1]
    apply nl_cons _ _ (by decide)
    apply nl_cons _ _ (by decide)
    apply nl_append _ _ hnlA2
    apply nl_cons _ _ hcclsne
    apply nl_cons _ _ (by decide)
    apply nl_append _ _ hnlA5
    apply nl_cons _ _ (by decide)
    apply nl_append _ _ hnlA7
    apply nl_append _ _ hnlA8
    apply nl_cons _ _ (by decide)
    apply nl_cons _ _ (by decide)
    apply nl_cons _ _ (by decide)
    apply nl_append _ _ hnlA11
    apply nl_cons _ _ (by decide)
    apply nl_append _ _ hs2nl
    apply nl_cons _ _ (by decide)
    apply nl_append _ _ hs3nl
    apply nl_cons _ _ (by decide)
    apply nl_cons _ _ (by decide)
    apply nl_cons _ _ (by decide)
    exact hnlA17
  have hnl1 : '\n' ∉ L1 := by rw [hL1]; exact nl_fix_checksum _ hnlraw1
  have hnlraw2 : '\n' ∉ rawLine2 (storedOf p) := by
    rw [hraw2]
    apply nl_cons _ _ (by decide)
    apply nl_cons _ _ (by decide)
    apply nl_append _ _ hnlA2
    apply nl_cons _ _ (by decide)
    apply nl_append _ _ hnlGi
    apply nl_cons _ _ (by decide)
    apply nl_append _ _ hnlGr
    apply nl_cons _ _ (by decide)
    apply nl_append _ _ hnlE7
    apply nl_cons _ _ (by decide)
    apply nl_append _ _ hnlGa
    apply nl_cons _ _ (by decide)
    apply nl_append _ _ hnlGm
    apply nl_cons _ _ (by decide)
    exact nl_append _ _ hnlGn hnlR5
  have hnl2 : '\n' ∉ L2 := by rw [hL2]; exact nl_fix_checksum _ hnlraw2
  have hnmnl : '\n' ∉ p.name := fun hm => absurd (h.name_ws '\n' hm (by decide)) (by decide)
  have hnlN0 : '\n' ∉ N0 := by rw [hN0]; exact nl_padRight _ _ _ (by decide) hnmnl
  have hgl : (genTleRun p).1.lines = [N0, L1, L2] := by
    rw [genTleRun_fst_lines p hval, ← hN0, ← hL1, ← hL2]
  have htostr : toStr (genTleRun p).1 = N0 ++ '\n' :: (L1 ++ '\n' :: L2) := by
    rw [toStr, hgl]
    simp only [List.getD_cons_zero, List.getD_cons_succ, List.append_assoc, List.cons_append]
  have hsplit : splitNl (toStr (genTleRun p).1) = [N0, L1, L2] := by
    rw [htostr, splitNl_append _ _ hnlN0, splitNl_append _ _ hnl1, splitNl_no_nl _ hnl2]
  have hparse := parseParams_eval (toStr (genTleRun p).1) N0 L1 L2 hsplit
    _ _ _ _ _ _ _ _ _ _ _ _ _ _
    hPsat hPcls hPyr hPday hP33 hPmm1 hPset hPinc hPra hPec hPap hPma hPmo hPrev
  rw [hsl917, hsl4452, hsl5361] at hparse
  obtain ⟨pd, hpd⟩ : ∃ x : Params, x =
      { name := pyRstrip N0,
        sat_num := ((((pyTrunc p.sat_num).natAbs : ℤ)) : ℚ),
        classification := [ccls],
        int_designator := A5,
        epoch_year := ((((pyTrunc p.epoch_year).natAbs : ℤ)) : ℚ),
        epoch_day := decQ (rdHE10 p.epoch_day 6) 6,
        mm_deriv1 := decQ ((((rdHE10 p.mm_deriv1 8).natAbs % 10 ^ 8 : ℕ) : ℤ)) 8,
        mm_deriv2 := .str s2,
        B := .str s3,
        inclination := decQ (rdHE10 p.inclination 4) 4,
        right_asc_node := decQ (rdHE10 p.right_asc_node 4) 4,
        eccentricity := decQ ((((rdHE10 p.eccentricity 7).natAbs % 10 ^ 7 : ℕ) : ℤ)) 7,
        arg_perigee := decQ (rdHE10 p.arg_perigee 4) 4,
        mean_anomaly := decQ (rdHE10 p.mean_anomaly 4) 4,
        mean_motion := decQ (rdHE10 p.mean_motion 6) 6,
        rev_num := ((((pyTrunc p.rev_num).natAbs : ℤ)) : ℚ),
        set_num := ((((pyTrunc p.set_num).natAbs : ℤ)) : ℚ) } := ⟨_, rfl⟩
  have hcrt : createTleFromStr (genTleRun p).1 (toStr (genTleRun p).1) = genTleRun pd := by
    unfold createTleFromStr
    rw [hparse, hpd]
  have hyrQ : (((pyTrunc p.epoch_year).natAbs : ℤ) : ℚ) ≤ 99 := by
    have hy : (pyTrunc p.epoch_year).natAbs ≤ 99 := by omega
    exact_mod_cast hy
  have hdayQ : decQ (rdHE10 p.epoch_day 6) 6 ≤ 366 := by
    have h1 : decQ (rdHE10 p.epoch_day 6) 6 ≤ decQ 366000000 6 := decQ_mono _ _ _ hm6le
    have h2 : decQ 366000000 6 = 366 := by
      rw [decQ_eq_div]
      norm_num
    rw [h2] at h1
    exact h1
  have hmc1pd : mmCheck (MMVal.str s2) 0 = none := mmCheck_str_ok s2 0 hs2len hs2dash
  have hmc2pd : mmCheck (MMVal.str s3) 2 = none := mmCheck_str_ok s3 2 hs3len hs3dash
  have hvalpd : validate (storedOf pd) = none := by
    rw [hpd]
    exact validate_none_of_checks _ hmc1pd hmc2pd hyrQ hdayQ rfl
  have hraw1pd : rawLine1 (storedOf pd) =
      '1' :: ' ' :: (A2 ++ ccls :: ' ' :: (A5 ++ ' ' :: (A7 ++ (A8 ++ ' ' :: ' ' :: '.' ::
        (A11 ++ ' ' :: (s2 ++ ' ' :: (s3 ++ ' ' :: '0' :: ' ' :: A17))))))) := by
    rw [hpd]
    show ['1', ' '] ++ intZeroPad 5 (pyTrunc ((((pyTrunc p.sat_num).natAbs : ℤ)) : ℚ))
        ++ padRightWith ' ' 1 [ccls] ++ [' ']
        ++ padRightWith ' ' 8 A5 ++ [' ']
        ++ intZeroPad 2 (pyTrunc ((((pyTrunc p.epoch_year).natAbs : ℤ)) : ℚ))
        ++ padRightWith '0' 12 (fixedRender 6 (decQ (rdHE10 p.epoch_day 6) 6)) ++ [' ']
        ++ [mm1SignChar (decQ ((((rdHE10 p.mm_deriv1 8).natAbs % 10 ^ 8 : ℕ) : ℤ)) 8), '.']
        ++ fracDigits 8 (decQ ((((rdHE10 p.mm_deriv1 8).natAbs % 10 ^ 8 : ℕ) : ℤ)) 8) ++ [' ']
        ++ padLeftWith ' ' 7 (mmStr (substMM (MMVal.str s2))) ++ [' ']
        ++ padLeftWith ' ' 7 (mmStr (substMM (MMVal.str s3)))
        ++ [' ', '0', ' ']
        ++ padLeftWith ' ' 4 (intChars (pyTrunc ((((pyTrunc p.set_num).natAbs : ℤ)) : ℚ))) = _
    have hsgn : mm1SignChar (decQ ((((rdHE10 p.mm_deriv1 8).natAbs % 10 ^ 8 : ℕ) : ℤ)) 8) = ' ' :=
      mm1SignChar_fraction _
        (lt_of_lt_of_le (by norm_num) (decQ_nonneg _ _ (Int.natCast_nonneg _)))
        (decQ_lt_one _ 8 (Nat.mod_lt _ (by norm_num)))
    rw [pyTrunc_intCast, pyTrunc_intCast, pyTrunc_intCast,
      intZeroPad_nonneg _ _ (Int.natCast_nonneg _), intZeroPad_nonneg _ _ (Int.natCast_nonneg _),
      intChars_nonneg _ (Int.natCast_nonneg _),
      Int.natAbs_ofNat, Int.natAbs_ofNat, Int.natAbs_ofNat,
      hsgn, fracDigits_requant 8 p.mm_deriv1,
      fixedRender_requant 6 p.epoch_day hday0,
      padRightWith_of_le ' ' 1 [ccls] (by simp),
      hA5, padRight_idem, ← hA5,
      show substMM (MMVal.str s2) = MMVal.str s2 from rfl,
      show substMM (MMVal.str s3) = MMVal.str s3 from rfl,
      show mmStr (MMVal.str s2) = s2 from rfl, show mmStr (MMVal.str s3) = s3 from rfl,
      padLeftWith_of_le ' ' 7 s2 (by omega), padLeftWith_of_le ' ' 7 s3 (by omega),
      ← hA2, ← hA7, ← hA8, ← hA11, ← hA17]
    simp only [List.cons_append, List.append_assoc, List.nil_append, List.singleton_append]
  have hraw2pd : rawLine2 (storedOf pd) =
      '2' :: ' ' :: (A2 ++ ' ' :: (Gi ++ ' ' :: (Gr ++ ' ' :: (E7 ++ ' ' :: (Ga ++ ' ' ::
        (Gm ++ ' ' :: (Gn ++ R5))))))) := by
    rw [hpd]
    show ['2', ' '] ++ intZeroPad 5 (pyTrunc ((((pyTrunc p.sat_num).natAbs : ℤ)) : ℚ)) ++ [' ']
        ++ padLeftWith ' ' 8 (fixedRender 4 (decQ (rdHE10 p.inclination 4) 4)) ++ [' ']
        ++ padLeftWith ' ' 8 (fixedRender 4 (decQ (rdHE10 p.right_asc_node 4) 4)) ++ [' ']
        ++ fracDigits 7 (decQ ((((rdHE10 p.eccentricity 7).natAbs % 10 ^ 7 : ℕ) : ℤ)) 7) ++ [' ']
        ++ padLeftWith ' ' 8 (fixedRender 4 (decQ (rdHE10 p.arg_perigee 4) 4)) ++ [' ']
        ++ padLeftWith ' ' 8 (fixedRender 4 (decQ (rdHE10 p.mean_anomaly 4) 4)) ++ [' ']
        ++ padRightWith '0' 11 (fixedRender 6 (decQ (rdHE10 p.mean_motion 6) 6))
        ++ intZeroPad 5 (pyTrunc ((((pyTrunc p.rev_num).natAbs : ℤ)) : ℚ)) = _
    rw [pyTrunc_intCast, pyTrunc_intCast,
      intZeroPad_nonneg _ _ (Int.natCast_nonneg _), intZeroPad_nonneg _ _ (Int.natCast_nonneg _),
      Int.natAbs_ofNat, Int.natAbs_ofNat,
      fixedRender_requant 4 p.inclination h.incl_nonneg,
      fixedRender_requant 4 p.right_asc_node h.raan_nonneg,
      fracDigits_requant 7 p.eccentricity,
      fixedRender_requant 4 p.arg_perigee h.argp_nonneg,
      fixedRender_requant 4 p.mean_anomaly h.ma_nonneg,
      fixedRender_requant 6 p.mean_motion hmo0,
      ← hA2, ← hGi, ← hGr, ← hE7, ← hGa, ← hGm, ← hGn, ← hR5]
    simp only [List.cons_append, List.append_assoc, List.nil_append, List.singleton_append]
  have hname_eq : padRightWith ' ' 24 pd.name = padRightWith ' ' 24 p.name := by
    rw [hpd]
    show padRightWith ' ' 24 (pyRstrip N0) = _
    rw [hN0]
    exact rstrip_pad_name p.name h.name_le h.name_ws
  have hraw1eq : rawLine1 (storedOf pd) = rawLine1 (storedOf p) := hraw1pd.trans hraw1.symm
  have hraw2eq : rawLine2 (storedOf pd) = rawLine2 (storedOf p) := hraw2pd.trans hraw2.symm
  refine ⟨hg2, ?_, ?_⟩
  · rw [hcrt, genTleRun_of_validate_none pd hvalpd]
  · rw [hcrt, genTleRun_fst_lines pd hvalpd, hgl, hN0, hL1, hL2, hname_eq, hraw1eq, hraw2eq]

theorem encode_decode_encode_id_witness :
    (genTleRun issParams).2 = none ∧
    (createTleFromStr (genTleRun issParams).1 (toStr (genTleRun issParams).1)).2 = none ∧
    (createTleFromStr (genTleRun issParams).1 (toStr (genTleRun issParams).1)).1.lines =
      (genTleRun issParams).1.lines :=
  encode_decode_encode_id issParams (by constructor <;> decide)

end TLE
